import Mathlib

/-!
Shallow embedding of the vim-style editing engine of the `sqlit` repository
(`src/sqlit/plugins/vim_mode/engine/`): the document wrapper (`document.py`),
the state object (`state.py`), the keymap (`keymap.py`), motions
(`motions.py`), operators (`operators.py`), text objects (`text_objects.py`),
the ex-command handler (`command.py`) and the per-keystroke engine controller
(`engine.py`).

Python strings become `List Char`; the host `TextArea` buffer is modelled as
the full text plus a cursor, with `replace`/`insert` as splices at character
offsets (the §6 Text Buffer Interface).  Python `str.isspace` is modelled by
`Char.isWhitespace`.  Scanning `while` loops in the source are translated to
closed forms over `List.takeWhile`/structural recursions so that everything
evaluates by `decide`/`rfl`; each such definition notes the loop it mirrors.
Where Python would raise `IndexError` on out-of-contract indices, the
embedding uses `getD`, matching the source on all in-bounds inputs.
-/

namespace VimSpec

/-- Quote character (ASCII 39), used for the single-quote text objects. -/
def squote : Char := Char.ofNat 39

/-- Backquote character (ASCII 96), used for the backtick text objects. -/
def bquote : Char := Char.ofNat 96

/-- Python `char.isspace()` (document.py uses it throughout). -/
def isSpaceChar (c : Char) : Bool := c.isWhitespace

/-- WORD_CHARS regex `[a-zA-Z0-9_]` from document.py. -/
def is_word_char (c : Char) : Bool := c.isAlphanum || c = '_'

/-- DocumentWrapper._get_char_class: 0 = whitespace, 1 = word, 2 = punctuation. -/
def get_char_class (c : Char) : Nat :=
  if isSpaceChar c then 0
  else if is_word_char c then 1
  else 2

/-- Closed form of `while col < len(line) and p(line[col]): col += 1`. -/
def scanFwd (p : Char → Bool) (line : List Char) (col : Nat) : Nat :=
  col + ((line.drop col).takeWhile p).length

/-- Closed form of `while col < len(line)-1 and p(line[col+1]): col += 1`
(the word-end advance in document.py, which looks one character ahead). -/
def scanFwdNext (p : Char → Bool) (line : List Char) (col : Nat) : Nat :=
  col + ((line.drop (col + 1)).takeWhile p).length

/-- Closed form of `while col >= 0 and col < len(line) and line[col].isspace():
col -= 1` (backward whitespace skip in get_word_start_backward). -/
def scanBwdWs (line : List Char) (col : Int) : Int :=
  if 0 ≤ col ∧ col < line.length then
    col - (((line.take (col.toNat + 1)).reverse.takeWhile isSpaceChar).length : Int)
  else col

/-- Closed form of `while col > 0 and pred(line[col-1]): col -= 1`
(the run-start scans in get_word_start_backward / get_word_boundaries). -/
def scanRunStart (p : Char → Bool) (line : List Char) (col : Nat) : Nat :=
  col - ((line.take col).reverse.takeWhile p).length

-- ─────────────────────────────────────────────────────────────────
-- Document model (DocumentWrapper over the host TextArea)
-- ─────────────────────────────────────────────────────────────────

/-- Python tuple comparison `(r1, c1) < (r2, c2)`: lexicographic. -/
def posLt (a b : Nat × Nat) : Bool :=
  a.1 < b.1 || (a.1 = b.1 && a.2 < b.2)

/-- Host text buffer: the full text and the cursor location, per the
Text Buffer Interface the engine consumes. -/
structure Doc where
  text : List Char
  cursor : Nat × Nat
deriving DecidableEq

/-- DocumentWrapper.lines: `text.split("\n")`. -/
def Doc.lines (d : Doc) : List (List Char) := d.text.splitOn '\n'

/-- DocumentWrapper.line_count. -/
def Doc.line_count (d : Doc) : Nat := d.lines.length

/-- DocumentWrapper.cursor_row. -/
def Doc.cursor_row (d : Doc) : Nat := d.cursor.1

/-- DocumentWrapper.cursor_col. -/
def Doc.cursor_col (d : Doc) : Nat := d.cursor.2

/-- DocumentWrapper.current_line (empty when the row is out of range). -/
def Doc.current_line (d : Doc) : List Char := d.lines.getD d.cursor_row []

/-- DocumentWrapper.current_line_length. -/
def Doc.current_line_length (d : Doc) : Nat := d.current_line.length

/-- Character offset of a position into the full text:
the lengths of the rows above it (plus their newlines) plus the column. -/
def linesOffset (lines : List (List Char)) (p : Nat × Nat) : Nat :=
  ((lines.take p.1).map (fun l => l.length + 1)).sum + p.2

/-- Offset of a position into `d.text`. -/
def Doc.offset (d : Doc) (p : Nat × Nat) : Nat := linesOffset d.lines p

/-- Position reached from `p` after inserting the characters of `t`
(Textual places the cursor at the end of an edit). -/
def advancePos (p : Nat × Nat) (t : List Char) : Nat × Nat :=
  t.foldl (fun q c => if c = '\n' then (q.1 + 1, 0) else (q.1, q.2 + 1)) p

/-- Host `TextArea.replace(text, start, end)`: splice `t` over the character
range `[start, end)` and leave the cursor at the end of the inserted text.
Callers in the source always pass `start ≤ end`. -/
def Doc.replace (d : Doc) (t : List Char) (s e : Nat × Nat) : Doc :=
  { text := d.text.take (d.offset s) ++ t ++ d.text.drop (d.offset e)
    cursor := advancePos s t }

/-- DocumentWrapper.move_cursor (the `select` flag only affects the host
selection, which the engine never reads back; it is dropped here). -/
def Doc.move_cursor (d : Doc) (p : Nat × Nat) : Doc := { d with cursor := p }

/-- DocumentWrapper.set_selection: the engine only observes the resulting
cursor, which Textual places at the selection's cursor end. -/
def Doc.set_selection (d : Doc) (_anchor c : Nat × Nat) : Doc :=
  { d with cursor := c }

/-- DocumentWrapper.insert_text: host inserts at the cursor. -/
def Doc.insert_text (d : Doc) (t : List Char) : Doc :=
  d.replace t d.cursor d.cursor

/-- DocumentWrapper.get_text_between (document.py lines 631-664). -/
def Doc.get_text_between (d : Doc) (start e : Nat × Nat) : List Char :=
  let (start, e) := if posLt e start then (e, start) else (start, e)
  let lines := d.lines
  let (start_row, start_col) := start
  let (end_row, end_col) := e
  if start_row = end_row then
    if start_row < lines.length then
      ((lines.getD start_row []).take end_col).drop start_col
    else []
  else
    let first : List (List Char) :=
      if start_row < lines.length then [(lines.getD start_row []).drop start_col] else []
    let middle : List (List Char) :=
      (lines.drop (start_row + 1)).take (end_row - (start_row + 1))
    let last : List (List Char) :=
      if end_row < lines.length then [(lines.getD end_row []).take end_col] else []
    List.intercalate ['\n'] (first ++ middle ++ last)

/-- DocumentWrapper.delete_range: returns the removed text and the new doc. -/
def Doc.delete_range (d : Doc) (start e : Nat × Nat) : List Char × Doc :=
  let (start, e) := if posLt e start then (e, start) else (start, e)
  let deleted := d.get_text_between start e
  (deleted, d.replace [] start e)

/-- DocumentWrapper.get_line_range: complete lines start_row..end_row. -/
def Doc.get_line_range (d : Doc) (start_row end_row : Nat) : List Char :=
  let lines := d.lines
  let e := min (lines.length - 1) end_row
  List.intercalate ['\n'] ((lines.take (e + 1)).drop start_row)

/-- DocumentWrapper.delete_lines (document.py lines 674-697), including its
special handling of the trailing newline. -/
def Doc.delete_lines (d : Doc) (start_row end_row : Nat) : List Char × Doc :=
  let lines := d.lines
  let end_row := min (lines.length - 1) end_row
  let deleted := List.intercalate ['\n'] ((lines.take (end_row + 1)).drop start_row)
  if end_row + 1 < lines.length then
    (deleted, d.replace [] (start_row, 0) (end_row + 1, 0))
  else
    let start : Nat × Nat :=
      if 0 < start_row then (start_row - 1, (lines.getD (start_row - 1) []).length)
      else (start_row, 0)
    (deleted, d.replace [] start (end_row, (lines.getD end_row []).length))

/-- DocumentWrapper.replace_text. -/
def Doc.replace_text (d : Doc) (start e : Nat × Nat) (t : List Char) : Doc :=
  let (start, e) := if posLt e start then (e, start) else (start, e)
  d.replace t start e

-- ─────────────────────────────────────────────────────────────────
-- Cursor movement helpers (document.py, return positions only)
-- ─────────────────────────────────────────────────────────────────

/-- DocumentWrapper.get_cursor_left. -/
def Doc.get_cursor_left (d : Doc) (count : Nat) : Nat × Nat :=
  (d.cursor_row, d.cursor_col - count)

/-- DocumentWrapper.get_cursor_right (vim stops before EOL). -/
def Doc.get_cursor_right (d : Doc) (count : Nat) : Nat × Nat :=
  (d.cursor_row, min (d.current_line_length - 1) (d.cursor_col + count))

/-- DocumentWrapper.get_cursor_up. -/
def Doc.get_cursor_up (d : Doc) (count : Nat) : Nat × Nat :=
  let new_row := d.cursor_row - count
  let new_len := (d.lines.getD new_row []).length
  (new_row, min d.cursor_col (new_len - 1))

/-- DocumentWrapper.get_cursor_down. -/
def Doc.get_cursor_down (d : Doc) (count : Nat) : Nat × Nat :=
  let new_row := min (d.line_count - 1) (d.cursor_row + count)
  let new_len := (d.lines.getD new_row []).length
  (new_row, min d.cursor_col (new_len - 1))

/-- DocumentWrapper.get_line_start. -/
def Doc.get_line_start (d : Doc) : Nat × Nat := (d.cursor_row, 0)

/-- DocumentWrapper.get_line_end. -/
def Doc.get_line_end (d : Doc) : Nat × Nat :=
  (d.cursor_row, d.current_line_length - 1)

/-- First non-whitespace column of a line, or 0 when the line is blank
(the loop in get_first_non_blank / get_document_end / get_line_n). -/
def firstNonBlankCol (line : List Char) : Nat :=
  match line.findIdx? (fun c => ¬ isSpaceChar c) with
  | some i => i
  | none => 0

/-- DocumentWrapper.get_first_non_blank. -/
def Doc.get_first_non_blank (d : Doc) : Nat × Nat :=
  (d.cursor_row, firstNonBlankCol d.current_line)

/-- DocumentWrapper.get_last_non_blank (`line.rstrip()` then last index). -/
def Doc.get_last_non_blank (d : Doc) : Nat × Nat :=
  let stripped := (d.current_line.reverse.dropWhile isSpaceChar).reverse
  (d.cursor_row, if stripped.isEmpty then 0 else stripped.length - 1)

/-- DocumentWrapper.get_document_start. -/
def Doc.get_document_start (_d : Doc) : Nat × Nat := (0, 0)

/-- DocumentWrapper.get_document_end: first non-blank of the last line. -/
def Doc.get_document_end (d : Doc) : Nat × Nat :=
  let last_row := d.line_count - 1
  (last_row, firstNonBlankCol (d.lines.getD last_row []))

/-- DocumentWrapper.get_line_n (1-indexed, clamped). -/
def Doc.get_line_n (d : Doc) (n : Nat) : Nat × Nat :=
  let row := min (n - 1) (d.line_count - 1)
  (row, firstNonBlankCol (d.lines.getD row []))

-- ─────────────────────────────────────────────────────────────────
-- Word navigation (document.py lines 237-385)
-- ─────────────────────────────────────────────────────────────────

/-- One `for`-iteration of get_word_start_forward: skip the current run
(class run for small words, non-whitespace for WORDs), skip whitespace, and
on reaching end of line move to the next line's first non-whitespace column. -/
def wordFwdStep (lines : List (List Char)) (big : Bool) (rc : Nat × Nat) :
    Nat × Nat :=
  let (row, col) := rc
  let line := lines.getD row []
  let col :=
    if big then
      let col := scanFwd (fun c => ¬ isSpaceChar c) line col
      scanFwd isSpaceChar line col
    else
      let col :=
        if col < line.length then
          let cc := get_char_class (line.getD col ' ')
          scanFwd (fun c => get_char_class c == cc) line col
        else col
      scanFwd isSpaceChar line col
  if line.length ≤ col then
    let row := row + 1
    if row < lines.length then (row, scanFwd isSpaceChar (lines.getD row []) 0)
    else (row, 0)
  else (row, col)

/-- The `for _ in range(count)` loop of get_word_start_forward, with the
`if row >= len(lines): break` check at the top of each iteration. -/
def wordFwdIter (lines : List (List Char)) (big : Bool) :
    Nat → Nat × Nat → Nat × Nat
  | 0, rc => rc
  | n + 1, rc =>
    if lines.length ≤ rc.1 then rc
    else wordFwdIter lines big n (wordFwdStep lines big rc)

/-- DocumentWrapper.get_word_start_forward (w/W motion). -/
def Doc.get_word_start_forward (d : Doc) (count : Nat) (big : Bool) :
    Nat × Nat :=
  let lines := d.lines
  let rc := wordFwdIter lines big count (d.cursor_row, d.cursor_col)
  (min rc.1 (lines.length - 1), rc.2)

/-- One `for`-iteration of get_word_end_forward; the second component is the
`break` flag (Python `break` statements at lines 303 and 309-310). -/
def wordEndStep (lines : List (List Char)) (big : Bool) (rc : Nat × Nat) :
    (Nat × Nat) × Bool :=
  let (row, col) := rc
  let col := col + 1
  let line := lines.getD row []
  let eol : (Nat × Nat) × Bool :=
    if line.length ≤ col then
      let row := row + 1
      if lines.length ≤ row then ((row, 0), true)
      else ((row, scanFwd isSpaceChar (lines.getD row []) 0), false)
    else ((row, col), false)
  if eol.2 then eol
  else
    let (row, col) := eol.1
    if lines.length ≤ row ∨ (lines.getD row []).length ≤ col then ((row, col), true)
    else
      let line := lines.getD row []
      if big then
        let col := scanFwd isSpaceChar line col
        ((row, scanFwdNext (fun c => ¬ isSpaceChar c) line col), false)
      else
        let col := scanFwd isSpaceChar line col
        if col < line.length then
          let cc := get_char_class (line.getD col ' ')
          ((row, scanFwdNext (fun c => get_char_class c == cc) line col), false)
        else ((row, col), false)

/-- The counted loop of get_word_end_forward. -/
def wordEndIter (lines : List (List Char)) (big : Bool) :
    Nat → Nat × Nat → Nat × Nat
  | 0, rc => rc
  | n + 1, rc =>
    if lines.length ≤ rc.1 then rc
    else
      let s := wordEndStep lines big rc
      if s.2 then s.1 else wordEndIter lines big n s.1

/-- DocumentWrapper.get_word_end_forward (e/E motion). -/
def Doc.get_word_end_forward (d : Doc) (count : Nat) (big : Bool) :
    Nat × Nat :=
  let lines := d.lines
  let rc := wordEndIter lines big count (d.cursor_row, d.cursor_col)
  (min rc.1 (lines.length - 1), rc.2)

/-- Int version of the run-start scan (columns may be negative while moving
backward in get_word_start_backward). -/
def scanRunStartI (p : Char → Bool) (line : List Char) (col : Int) : Int :=
  if 0 < col then
    ((col.toNat - ((line.take col.toNat).reverse.takeWhile p).length : Nat) : Int)
  else col

/-- One `for`-iteration of get_word_start_backward.  `Sum.inr` is the early
`return (0, 0)` taken when the scan runs off the top of the document.  The
Python code falls through to a shared run-start scan after the inner
line-change branch; here that scan is written in both arms. -/
def wordBwdStep (lines : List (List Char)) (big : Bool) (rc : Int × Int) :
    (Int × Int) ⊕ (Nat × Nat) :=
  let (row, col) := rc
  let col := col - 1
  let step1 : (Int × Int) ⊕ (Nat × Nat) :=
    if col < 0 then
      let row := row - 1
      if row < 0 then Sum.inr (0, 0)
      else
        let col : Int :=
          if row < (lines.length : Int) ∧ lines.getD row.toNat [] ≠ [] then
            ((lines.getD row.toNat []).length : Int) - 1
          else 0
        Sum.inl (row, col)
    else Sum.inl (row, col)
  match step1 with
  | Sum.inr v => Sum.inr v
  | Sum.inl (row, col) =>
    if row < 0 then Sum.inr (0, 0)
    else
      let line := if row < (lines.length : Int) then lines.getD row.toNat [] else []
      let col := scanBwdWs line col
      if col < 0 then
        let row := row - 1
        if row < 0 then Sum.inr (0, 0)
        else
          let line := lines.getD row.toNat []
          let col : Int := (line.length : Int) - 1
          if big then
            Sum.inl (row, scanRunStartI (fun c => ¬ isSpaceChar c) line col)
          else if 0 ≤ col ∧ col < (line.length : Int) then
            let cc := get_char_class (line.getD col.toNat ' ')
            Sum.inl (row, scanRunStartI (fun c => get_char_class c == cc) line col)
          else Sum.inl (row, col)
      else
        if big then
          Sum.inl (row, scanRunStartI (fun c => ¬ isSpaceChar c) line col)
        else if 0 ≤ col ∧ col < (line.length : Int) then
          let cc := get_char_class (line.getD col.toNat ' ')
          Sum.inl (row, scanRunStartI (fun c => get_char_class c == cc) line col)
        else Sum.inl (row, col)

/-- The counted loop of get_word_start_backward. -/
def wordBwdIter (lines : List (List Char)) (big : Bool) :
    Nat → Int × Int → (Int × Int) ⊕ (Nat × Nat)
  | 0, rc => Sum.inl rc
  | n + 1, rc =>
    match wordBwdStep lines big rc with
    | Sum.inr v => Sum.inr v
    | Sum.inl rc' => wordBwdIter lines big n rc'

/-- DocumentWrapper.get_word_start_backward (b/B motion). -/
def Doc.get_word_start_backward (d : Doc) (count : Nat) (big : Bool) :
    Nat × Nat :=
  match wordBwdIter d.lines big count ((d.cursor_row : Int), (d.cursor_col : Int)) with
  | Sum.inr v => v
  | Sum.inl (row, col) => ((max 0 row).toNat, (max 0 col).toNat)

-- ─────────────────────────────────────────────────────────────────
-- Find character (document.py lines 391-445)
-- ─────────────────────────────────────────────────────────────────

/-- Index (from `idx`) of the `k`-th occurrence of `ch` in the list
(the `found` counter of find_char_forward / find_char_backward). -/
def findNthAux (ch : Char) : List Char → Nat → Nat → Option Nat
  | [], _, _ => none
  | c :: rest, idx, k =>
    if c = ch then
      if k ≤ 1 then some idx else findNthAux ch rest (idx + 1) (k - 1)
    else findNthAux ch rest (idx + 1) k

/-- DocumentWrapper.find_char_forward (f/t): scans from `cursor_col + 1`. -/
def Doc.find_char_forward (d : Doc) (ch : Char) (count : Nat) (before : Bool) :
    Option (Nat × Nat) :=
  let line := d.current_line
  let col := d.cursor_col + 1
  match findNthAux ch (line.drop col) col count with
  | some c => some (d.cursor_row, if before then c - 1 else c)
  | none => none

/-- DocumentWrapper.find_char_backward (F/T): scans from `cursor_col - 1`
down to 0, i.e. over the reversed prefix before the cursor. -/
def Doc.find_char_backward (d : Doc) (ch : Char) (count : Nat) (before : Bool) :
    Option (Nat × Nat) :=
  let line := d.current_line
  match findNthAux ch ((line.take d.cursor_col).reverse) 0 count with
  | some j =>
    let c := d.cursor_col - 1 - j
    some (d.cursor_row, if before then c + 1 else c)
  | none => none

-- ─────────────────────────────────────────────────────────────────
-- Text object boundaries (document.py lines 451-591)
-- ─────────────────────────────────────────────────────────────────

/-- DocumentWrapper.get_word_boundaries (iw/iW): start and one-past-end
column of the run under the cursor. -/
def Doc.get_word_boundaries (d : Doc) (big : Bool) : Nat × Nat :=
  let line := d.current_line
  let col := d.cursor_col
  if line.isEmpty ∨ line.length ≤ col then (col, col)
  else if big then
    if isSpaceChar (line.getD col ' ') then (col, col)
    else
      let start := scanRunStart (fun c => ¬ isSpaceChar c) line col
      let e := scanFwdNext (fun c => ¬ isSpaceChar c) line col
      (start, e + 1)
  else
    let cc := get_char_class (line.getD col ' ')
    let start := scanRunStart (fun c => get_char_class c == cc) line col
    let e := scanFwdNext (fun c => get_char_class c == cc) line col
    (start, e + 1)

/-- DocumentWrapper.get_outer_word_boundaries (aw/aW): the word run plus
trailing whitespace, or leading whitespace when there is none trailing. -/
def Doc.get_outer_word_boundaries (d : Doc) (big : Bool) : Nat × Nat :=
  let (start, e) := d.get_word_boundaries big
  let line := d.current_line
  let e := scanFwd isSpaceChar line e
  let seg := (line.take e).drop start
  let rstripLen := (seg.reverse.dropWhile isSpaceChar).length
  let start :=
    if e = start + rstripLen then scanRunStart isSpaceChar line start
    else start
  (start, e)

/-- Backward scan of get_quote_boundaries: `while start >= 0 and (start >=
len(line) or line[start] != q): start -= 1`, returning the first hit; the
fuel argument is one more than the current position. -/
def quoteBwdAux (line : List Char) (q : Char) : Nat → Option Nat
  | 0 => none
  | s + 1 =>
    if s < line.length ∧ line.getD s ' ' = q then some s
    else quoteBwdAux line q s

/-- DocumentWrapper.get_quote_boundaries (quote text objects). -/
def Doc.get_quote_boundaries (d : Doc) (q : Char) (inner : Bool) :
    Option ((Nat × Nat) × (Nat × Nat)) :=
  let line := d.current_line
  let col := d.cursor_col
  let start? : Option Nat :=
    match quoteBwdAux line q (col + 1) with
    | some s => some s
    | none =>
      match (line.drop col).findIdx? (fun c => c = q) with
      | some j => some (col + j)
      | none => none
  match start? with
  | none => none
  | some start =>
    match (line.drop (start + 1)).findIdx? (fun c => c = q) with
    | none => none
    | some j =>
      let e := start + 1 + j
      if inner then some ((d.cursor_row, start + 1), (d.cursor_row, e))
      else some ((d.cursor_row, start), (d.cursor_row, e + 1))

/-- Backward bracket scan of get_bracket_boundaries: counts closers before
openers (nesting depth); the fuel argument is one more than the position. -/
def brOpenAux (line : List Char) (o c : Char) : Nat → Nat → Option Nat
  | 0, _ => none
  | s + 1, depth =>
    if s < line.length then
      if line.getD s ' ' = c then brOpenAux line o c s (depth + 1)
      else if line.getD s ' ' = o then
        if depth = 0 then some s else brOpenAux line o c s (depth - 1)
      else brOpenAux line o c s depth
    else brOpenAux line o c s depth

/-- Forward bracket scan of get_bracket_boundaries over the remaining
suffix, tracking nesting depth. -/
def brCloseAux (o c : Char) : List Char → Nat → Nat → Option Nat
  | [], _, _ => none
  | ch :: rest, idx, depth =>
    if ch = o then brCloseAux o c rest (idx + 1) (depth + 1)
    else if ch = c then
      if depth = 0 then some idx else brCloseAux o c rest (idx + 1) (depth - 1)
    else brCloseAux o c rest (idx + 1) depth

/-- DocumentWrapper.get_bracket_boundaries (bracket text objects,
single-line implementation used by the modal engine). -/
def Doc.get_bracket_boundaries (d : Doc) (o c : Char) (inner : Bool) :
    Option ((Nat × Nat) × (Nat × Nat)) :=
  let line := d.current_line
  let col := d.cursor_col
  match brOpenAux line o c (col + 1) 0 with
  | none => none
  | some s =>
    match brCloseAux o c (line.drop (s + 1)) (s + 1) 0 with
    | none => none
    | some e =>
      if inner then some ((d.cursor_row, s + 1), (d.cursor_row, e))
      else some ((d.cursor_row, s), (d.cursor_row, e + 1))

-- ─────────────────────────────────────────────────────────────────
-- State (state.py)
-- ─────────────────────────────────────────────────────────────────

/-- VimMode (state.py). -/
inductive VimMode where
  | normal | insert | visual | visualLine | visualBlock | command
  | replaceMode | opPending
deriving DecidableEq

/-- TextObjectType (state.py): selection kinds. -/
inductive TextObjectType where
  | exclusive | inclusive | linewise | block
deriving DecidableEq

/-- Register (state.py): content plus the linewise flag. -/
structure Register where
  content : List Char := []
  linewise : Bool := false
deriving DecidableEq

/-- Dict lookup `registers.get(k, Register())`. -/
def getReg (rs : List (String × Register)) (k : String) : Register :=
  match rs.find? (fun p => p.1 = k) with
  | some p => p.2
  | none => {}

/-- Dict assignment `registers[k] = v`. -/
def setReg (rs : List (String × Register)) (k : String) (v : Register) :
    List (String × Register) :=
  if rs.any (fun p => p.1 = k) then
    rs.map (fun p => if p.1 = k then (k, v) else p)
  else rs ++ [(k, v)]

/-- VimState (state.py); the macro/search/dot-repeat fields that no code
path of the engine reads are omitted. -/
structure VimState where
  mode : VimMode := .normal
  pending_operator : Option String := none
  operator_count : Nat := 1
  motion_count : Nat := 1
  input_buffer : List Char := []
  current_register : String := "\""
  registers : List (String × Register) :=
    [("\"", {}), ("0", {}), ("-", {}), ("+", {}), ("*", {})]
  visual_anchor : Option (Nat × Nat) := none
  last_char_search : List Char := []
  last_char_search_cmd : List Char := []
  insert_start : Option (Nat × Nat) := none
deriving DecidableEq

/-- VimState.reset_counts. -/
def VimState.reset_counts (s : VimState) : VimState :=
  { s with operator_count := 1, motion_count := 1, input_buffer := [] }

/-- VimState.reset_operator. -/
def VimState.reset_operator (s : VimState) : VimState :=
  { s with pending_operator := none, operator_count := 1, motion_count := 1,
           input_buffer := [] }

/-- VimState.get_effective_count. -/
def VimState.get_effective_count (s : VimState) : Nat :=
  s.operator_count * s.motion_count

/-- Whether a mode is one of the visual modes. -/
def VimMode.isVisual : VimMode → Bool
  | .visual | .visualLine | .visualBlock => true
  | _ => false

/-- VimState.enter_mode: clears operator state when leaving OperatorPending,
clears the visual anchor when leaving the visual modes, and always resets
the input buffer. -/
def VimState.enter_mode (s : VimState) (m : VimMode) : VimState :=
  let old := s.mode
  let s := { s with mode := m }
  let s := if old = .opPending then s.reset_operator else s
  let s :=
    if old.isVisual ∧ ¬ m.isVisual then { s with visual_anchor := none }
    else s
  { s with input_buffer := [] }

/-- VimState.yank_to_register: always writes the unnamed register, writes
register 0 only when the pending operator is `y`, writes a named register
when one is selected, then resets the selection to the unnamed register. -/
def VimState.yank_to_register (s : VimState) (t : List Char) (lw : Bool) :
    VimState :=
  let reg : Register := { content := t, linewise := lw }
  let rs := setReg s.registers "\"" reg
  let rs := if s.pending_operator = some "y" then setReg rs "0" reg else rs
  let rs :=
    if s.current_register ≠ "\"" ∧ s.current_register ≠ "0" ∧
        s.current_register ≠ "-" then
      setReg rs s.current_register reg
    else rs
  { s with registers := rs, current_register := "\"" }

/-- VimState.get_register_content. -/
def VimState.get_register_content (s : VimState) (r : Option String) :
    Register :=
  getReg s.registers (r.getD s.current_register)

/-- VimState.start_visual. -/
def VimState.start_visual (s : VimState) (anchor : Nat × Nat) (m : VimMode) :
    VimState :=
  { s with visual_anchor := some anchor }.enter_mode m

/-- VimState.accumulate_digit: returns the updated state and whether the
key was consumed; `0` with an empty buffer is the line-start motion. -/
def VimState.accumulate_digit (s : VimState) (key : String) :
    VimState × Bool :=
  if key = "0" ∧ s.input_buffer = [] then (s, false)
  else if key.data ≠ [] ∧ key.data.all Char.isDigit then
    ({ s with input_buffer := s.input_buffer ++ key.data }, true)
  else (s, false)

/-- Decimal value of a digit buffer. -/
def digitsVal (l : List Char) : Nat :=
  l.foldl (fun acc c => acc * 10 + (c.toNat - '0'.toNat)) 0

/-- VimState.consume_count: parse and clear the buffer, defaulting to 1. -/
def VimState.consume_count (s : VimState) : VimState × Nat :=
  if s.input_buffer = [] then (s, 1)
  else ({ s with input_buffer := [] }, max 1 (digitsVal s.input_buffer))

-- ─────────────────────────────────────────────────────────────────
-- Keymap (keymap.py)
-- ─────────────────────────────────────────────────────────────────

/-- BindingType (keymap.py). -/
inductive BindingType where
  | motion | operatorB | textObject | action | modeSwitch | pendingB
deriving DecidableEq

/-- VimBinding (keymap.py); the key/description/inclusive/linewise fields
that the engine never reads are omitted. -/
structure VimBinding where
  type : BindingType
  handler : String
  modes : List String := ["normal"]
deriving DecidableEq

/-- Key of the `i'` text object (apostrophe built from its code point). -/
def keyInnerSQ : String := String.mk ['i', squote]

/-- Key of the `a'` text object. -/
def keyOuterSQ : String := String.mk ['a', squote]

/-- Dict lookup shared by the keymap tables and the handler registries
(`dict.get`). -/
def tableGet {α : Type} (tbl : List (String × α)) (key : String) : Option α :=
  (tbl.find? (fun p => p.1 = key)).map (fun p => p.2)

/-- The `motions` dict of VimKeymapConfig. -/
def motionsTable : List (String × VimBinding) :=
  [("h", ⟨.motion, "motion_left", ["normal"]⟩),
   ("l", ⟨.motion, "motion_right", ["normal"]⟩),
   ("j", ⟨.motion, "motion_down", ["normal"]⟩),
   ("k", ⟨.motion, "motion_up", ["normal"]⟩),
   ("left", ⟨.motion, "motion_left", ["normal"]⟩),
   ("right", ⟨.motion, "motion_right", ["normal"]⟩),
   ("down", ⟨.motion, "motion_down", ["normal"]⟩),
   ("up", ⟨.motion, "motion_up", ["normal"]⟩),
   ("backspace", ⟨.motion, "motion_left", ["normal"]⟩),
   ("space", ⟨.motion, "motion_right", ["normal"]⟩),
   ("0", ⟨.motion, "motion_line_start", ["normal"]⟩),
   ("^", ⟨.motion, "motion_first_non_blank", ["normal"]⟩),
   ("$", ⟨.motion, "motion_line_end", ["normal"]⟩),
   ("g_", ⟨.motion, "motion_last_non_blank", ["normal"]⟩),
   ("w", ⟨.motion, "motion_word_forward", ["normal"]⟩),
   ("W", ⟨.motion, "motion_word_forward_big", ["normal"]⟩),
   ("e", ⟨.motion, "motion_word_end", ["normal"]⟩),
   ("E", ⟨.motion, "motion_word_end_big", ["normal"]⟩),
   ("b", ⟨.motion, "motion_word_backward", ["normal"]⟩),
   ("B", ⟨.motion, "motion_word_backward_big", ["normal"]⟩),
   ("gg", ⟨.motion, "motion_document_start", ["normal"]⟩),
   ("G", ⟨.motion, "motion_document_end", ["normal"]⟩),
   (";", ⟨.motion, "motion_repeat_find", ["normal"]⟩),
   (",", ⟨.motion, "motion_repeat_find_reverse", ["normal"]⟩)]

/-- VimKeymapProvider.get_motion. -/
def get_motion (key : String) : Option VimBinding := tableGet motionsTable key

/-- The `operators` dict of VimKeymapConfig. -/
def operatorsTable : List (String × VimBinding) :=
  [("d", ⟨.operatorB, "operator_delete", ["normal"]⟩),
   ("c", ⟨.operatorB, "operator_change", ["normal"]⟩),
   ("y", ⟨.operatorB, "operator_yank", ["normal"]⟩),
   (">", ⟨.operatorB, "operator_indent", ["normal"]⟩),
   ("<", ⟨.operatorB, "operator_dedent", ["normal"]⟩),
   ("gu", ⟨.operatorB, "operator_lowercase", ["normal"]⟩),
   ("gU", ⟨.operatorB, "operator_uppercase", ["normal"]⟩),
   ("g~", ⟨.operatorB, "operator_swap_case", ["normal"]⟩)]

/-- VimKeymapProvider.get_operator. -/
def get_operator (key : String) : Option VimBinding := tableGet operatorsTable key

/-- The `text_objects` dict of VimKeymapConfig. -/
def textObjectsTable : List (String × VimBinding) :=
  [("iw", ⟨.textObject, "textobj_inner_word", ["normal"]⟩),
   ("aw", ⟨.textObject, "textobj_outer_word", ["normal"]⟩),
   ("iW", ⟨.textObject, "textobj_inner_word_big", ["normal"]⟩),
   ("aW", ⟨.textObject, "textobj_outer_word_big", ["normal"]⟩),
   ("i\"", ⟨.textObject, "textobj_inner_double_quote", ["normal"]⟩),
   ("a\"", ⟨.textObject, "textobj_outer_double_quote", ["normal"]⟩),
   (keyInnerSQ, ⟨.textObject, "textobj_inner_single_quote", ["normal"]⟩),
   (keyOuterSQ, ⟨.textObject, "textobj_outer_single_quote", ["normal"]⟩),
   ("i`", ⟨.textObject, "textobj_inner_backtick", ["normal"]⟩),
   ("a`", ⟨.textObject, "textobj_outer_backtick", ["normal"]⟩),
   ("i(", ⟨.textObject, "textobj_inner_paren", ["normal"]⟩),
   ("a(", ⟨.textObject, "textobj_outer_paren", ["normal"]⟩),
   ("ib", ⟨.textObject, "textobj_inner_paren", ["normal"]⟩),
   ("ab", ⟨.textObject, "textobj_outer_paren", ["normal"]⟩),
   ("i)", ⟨.textObject, "textobj_inner_paren", ["normal"]⟩),
   ("a)", ⟨.textObject, "textobj_outer_paren", ["normal"]⟩),
   ("i[", ⟨.textObject, "textobj_inner_bracket", ["normal"]⟩),
   ("a[", ⟨.textObject, "textobj_outer_bracket", ["normal"]⟩),
   ("i]", ⟨.textObject, "textobj_inner_bracket", ["normal"]⟩),
   ("a]", ⟨.textObject, "textobj_outer_bracket", ["normal"]⟩),
   ("i\x7b", ⟨.textObject, "textobj_inner_brace", ["normal"]⟩),
   ("a\x7b", ⟨.textObject, "textobj_outer_brace", ["normal"]⟩),
   ("iB", ⟨.textObject, "textobj_inner_brace", ["normal"]⟩),
   ("aB", ⟨.textObject, "textobj_outer_brace", ["normal"]⟩),
   ("i\x7d", ⟨.textObject, "textobj_inner_brace", ["normal"]⟩),
   ("a\x7d", ⟨.textObject, "textobj_outer_brace", ["normal"]⟩),
   ("i<", ⟨.textObject, "textobj_inner_angle", ["normal"]⟩),
   ("a<", ⟨.textObject, "textobj_outer_angle", ["normal"]⟩),
   ("i>", ⟨.textObject, "textobj_inner_angle", ["normal"]⟩),
   ("a>", ⟨.textObject, "textobj_outer_angle", ["normal"]⟩)]

/-- VimKeymapProvider.get_text_object. -/
def get_text_object (key : String) : Option VimBinding :=
  tableGet textObjectsTable key

/-- The `actions` dict of VimKeymapConfig. -/
def actionsTable : List (String × VimBinding) :=
  [("i", ⟨.action, "action_insert", ["normal"]⟩),
   ("I", ⟨.action, "action_insert_line_start", ["normal"]⟩),
   ("a", ⟨.action, "action_append", ["normal"]⟩),
   ("A", ⟨.action, "action_append_line_end", ["normal"]⟩),
   ("o", ⟨.action, "action_open_below", ["normal"]⟩),
   ("O", ⟨.action, "action_open_above", ["normal"]⟩),
   ("s", ⟨.action, "action_substitute", ["normal"]⟩),
   ("S", ⟨.action, "action_substitute_line", ["normal"]⟩),
   ("C", ⟨.action, "action_change_to_eol", ["normal"]⟩),
   ("D", ⟨.action, "action_delete_to_eol", ["normal"]⟩),
   ("u", ⟨.action, "action_undo", ["normal"]⟩),
   ("ctrl+r", ⟨.action, "action_redo", ["normal"]⟩),
   ("p", ⟨.action, "action_paste_after", ["normal"]⟩),
   ("P", ⟨.action, "action_paste_before", ["normal"]⟩),
   ("x", ⟨.action, "action_delete_char", ["normal"]⟩),
   ("X", ⟨.action, "action_delete_char_before", ["normal"]⟩),
   ("~", ⟨.action, "action_swap_case_char", ["normal"]⟩),
   ("J", ⟨.action, "action_join_lines", ["normal"]⟩),
   (".", ⟨.action, "action_repeat", ["normal"]⟩),
   ("escape", ⟨.action, "action_escape", ["insert", "visual", "command"]⟩),
   ("ctrl+[", ⟨.action, "action_escape", ["insert", "visual", "command"]⟩),
   ("ctrl+c", ⟨.action, "action_escape", ["insert", "visual", "command"]⟩)]

/-- VimKeymapProvider.get_action. -/
def get_action (key : String) : Option VimBinding := tableGet actionsTable key

/-- The `visual_actions` dict of VimKeymapConfig. -/
def visualActionsTable : List (String × VimBinding) :=
  [("i", ⟨.action, "action_visual_insert", ["visual"]⟩),
   ("a", ⟨.action, "action_visual_append", ["visual"]⟩),
   ("I", ⟨.action, "action_visual_insert", ["visual"]⟩),
   ("A", ⟨.action, "action_visual_append", ["visual"]⟩)]

/-- VimKeymapProvider.get_visual_action. -/
def get_visual_action (key : String) : Option VimBinding :=
  tableGet visualActionsTable key

/-- The `mode_switches` dict of VimKeymapConfig. -/
def modeSwitchesTable : List (String × VimBinding) :=
  [("v", ⟨.modeSwitch, "mode_visual", ["normal"]⟩),
   ("V", ⟨.modeSwitch, "mode_visual_line", ["normal"]⟩),
   ("ctrl+v", ⟨.modeSwitch, "mode_visual_block", ["normal"]⟩),
   (":", ⟨.modeSwitch, "mode_command", ["normal", "visual"]⟩)]

/-- VimKeymapProvider.get_mode_switch. -/
def get_mode_switch (key : String) : Option VimBinding :=
  tableGet modeSwitchesTable key

/-- The `pending` dict of VimKeymapConfig (keys waiting for one more char). -/
def pendingTable : List (String × VimBinding) :=
  [("f", ⟨.pendingB, "pending_find_forward", ["normal"]⟩),
   ("F", ⟨.pendingB, "pending_find_backward", ["normal"]⟩),
   ("t", ⟨.pendingB, "pending_till_forward", ["normal"]⟩),
   ("T", ⟨.pendingB, "pending_till_backward", ["normal"]⟩),
   ("r", ⟨.pendingB, "pending_replace_char", ["normal"]⟩),
   ("\"", ⟨.pendingB, "pending_register", ["normal"]⟩)]

/-- VimKeymapProvider.get_pending. -/
def get_pending (key : String) : Option VimBinding := tableGet pendingTable key

/-- Mode filter inside VimKeymapProvider.lookup: a category hit is returned
only when the mode matches (otherwise the next category is tried). -/
def lookupCat (b : Option VimBinding) (mode : String) : Option VimBinding :=
  match b with
  | some bd => if mode ∈ bd.modes ∨ bd.modes = [] then some bd else none
  | none => none

/-- VimKeymapProvider.lookup: categories tried in order motions, operators,
actions, mode switches, pending. -/
def keymapLookup (key mode : String) : Option VimBinding :=
  (lookupCat (get_motion key) mode).orElse fun _ =>
  (lookupCat (get_operator key) mode).orElse fun _ =>
  (lookupCat (get_action key) mode).orElse fun _ =>
  (lookupCat (get_mode_switch key) mode).orElse fun _ =>
  lookupCat (get_pending key) mode

-- ─────────────────────────────────────────────────────────────────
-- Motions (motions.py)
-- ─────────────────────────────────────────────────────────────────

/-- MotionResult (motions.py). -/
structure MotionResult where
  position : Nat × Nat
  type : TextObjectType := .exclusive
  failed : Bool := false
deriving DecidableEq

/-- Motion functions; Python motion functions may mutate the state
(motion_find_char records the last character search), so the updated
state is returned alongside the result. -/
abbrev MotionFunc := Doc → VimState → Nat → MotionResult × VimState

/-- motion_left (h). -/
def motion_left : MotionFunc := fun d s count =>
  (⟨d.get_cursor_left count, .exclusive, false⟩, s)

/-- motion_right (l). -/
def motion_right : MotionFunc := fun d s count =>
  (⟨d.get_cursor_right count, .exclusive, false⟩, s)

/-- motion_up (k). -/
def motion_up : MotionFunc := fun d s count =>
  (⟨d.get_cursor_up count, .linewise, false⟩, s)

/-- motion_down (j). -/
def motion_down : MotionFunc := fun d s count =>
  (⟨d.get_cursor_down count, .linewise, false⟩, s)

/-- motion_line_start (0). -/
def motion_line_start : MotionFunc := fun d s _ =>
  (⟨d.get_line_start, .exclusive, false⟩, s)

/-- motion_first_non_blank (^). -/
def motion_first_non_blank : MotionFunc := fun d s _ =>
  (⟨d.get_first_non_blank, .exclusive, false⟩, s)

/-- motion_line_end ($). -/
def motion_line_end : MotionFunc := fun d s _ =>
  (⟨d.get_line_end, .inclusive, false⟩, s)

/-- motion_last_non_blank (g_). -/
def motion_last_non_blank : MotionFunc := fun d s _ =>
  (⟨d.get_last_non_blank, .inclusive, false⟩, s)

/-- motion_word_forward (w). -/
def motion_word_forward : MotionFunc := fun d s count =>
  (⟨d.get_word_start_forward count false, .exclusive, false⟩, s)

/-- motion_word_forward_big (W). -/
def motion_word_forward_big : MotionFunc := fun d s count =>
  (⟨d.get_word_start_forward count true, .exclusive, false⟩, s)

/-- motion_word_end (e). -/
def motion_word_end : MotionFunc := fun d s count =>
  (⟨d.get_word_end_forward count false, .inclusive, false⟩, s)

/-- motion_word_end_big (E). -/
def motion_word_end_big : MotionFunc := fun d s count =>
  (⟨d.get_word_end_forward count true, .inclusive, false⟩, s)

/-- motion_word_backward (b). -/
def motion_word_backward : MotionFunc := fun d s count =>
  (⟨d.get_word_start_backward count false, .exclusive, false⟩, s)

/-- motion_word_backward_big (B). -/
def motion_word_backward_big : MotionFunc := fun d s count =>
  (⟨d.get_word_start_backward count true, .exclusive, false⟩, s)

/-- motion_document_start (gg; with a count, jump to line N). -/
def motion_document_start : MotionFunc := fun d s count =>
  if 1 < count then (⟨d.get_line_n count, .linewise, false⟩, s)
  else (⟨d.get_document_start, .linewise, false⟩, s)

/-- motion_document_end (G; with a count, jump to line N). -/
def motion_document_end : MotionFunc := fun d s count =>
  if 1 < count then (⟨d.get_line_n count, .linewise, false⟩, s)
  else (⟨d.get_document_end, .linewise, false⟩, s)

/-- motion_find_char (f/F/t/T): on success records the search for `;`/`,`;
on failure returns the unchanged cursor with `failed` set. -/
def motion_find_char (d : Doc) (s : VimState) (count : Nat) (ch : Char)
    (forward before : Bool) : MotionResult × VimState :=
  let pos? :=
    if forward then d.find_char_forward ch count before
    else d.find_char_backward ch count before
  match pos? with
  | none => (⟨d.cursor, .exclusive, true⟩, s)
  | some p =>
    let cmd : List Char :=
      if forward then (if before then ['t'] else ['f'])
      else (if before then ['T'] else ['F'])
    let s := { s with last_char_search := [ch], last_char_search_cmd := cmd }
    let mtype : TextObjectType :=
      if forward ∧ ¬ before then .inclusive else .exclusive
    (⟨p, mtype, false⟩, s)

/-- motion_repeat_find (;). -/
def motion_repeat_find : MotionFunc := fun d s count =>
  if s.last_char_search = [] ∨ s.last_char_search_cmd = [] then
    (⟨d.cursor, .exclusive, true⟩, s)
  else
    let cmd := s.last_char_search_cmd
    let forward := cmd = ['f'] ∨ cmd = ['t']
    let before := cmd.map Char.toLower = ['t']
    motion_find_char d s count (s.last_char_search.getD 0 ' ') forward before

/-- motion_repeat_find_reverse (,): repeats with the direction flipped. -/
def motion_repeat_find_reverse : MotionFunc := fun d s count =>
  if s.last_char_search = [] ∨ s.last_char_search_cmd = [] then
    (⟨d.cursor, .exclusive, true⟩, s)
  else
    let cmd := s.last_char_search_cmd
    let forward := ¬ (cmd = ['f'] ∨ cmd = ['t'])
    let before := cmd.map Char.toLower = ['t']
    motion_find_char d s count (s.last_char_search.getD 0 ' ') forward before

/-- The MOTION_HANDLERS dict (motions.py). -/
def MOTION_HANDLERS : List (String × MotionFunc) :=
  [("motion_left", motion_left),
   ("motion_right", motion_right),
   ("motion_up", motion_up),
   ("motion_down", motion_down),
   ("motion_line_start", motion_line_start),
   ("motion_first_non_blank", motion_first_non_blank),
   ("motion_line_end", motion_line_end),
   ("motion_last_non_blank", motion_last_non_blank),
   ("motion_word_forward", motion_word_forward),
   ("motion_word_forward_big", motion_word_forward_big),
   ("motion_word_end", motion_word_end),
   ("motion_word_end_big", motion_word_end_big),
   ("motion_word_backward", motion_word_backward),
   ("motion_word_backward_big", motion_word_backward_big),
   ("motion_document_start", motion_document_start),
   ("motion_document_end", motion_document_end),
   ("motion_repeat_find", motion_repeat_find),
   ("motion_repeat_find_reverse", motion_repeat_find_reverse)]

/-- get_motion_handler (motions.py). -/
def get_motion_handler (name : String) : Option MotionFunc :=
  tableGet MOTION_HANDLERS name

-- ─────────────────────────────────────────────────────────────────
-- Operators (operators.py)
-- ─────────────────────────────────────────────────────────────────

/-- OperatorResult (operators.py). -/
structure OperatorResult where
  success : Bool := true
  deleted_text : List Char := []
  enter_insert : Bool := false
deriving DecidableEq

/-- Operator functions mutate the document and the state. -/
abbrev OperatorFunc :=
  Doc → VimState → Nat × Nat → Nat × Nat → TextObjectType →
    Doc × VimState × OperatorResult

/-- Inclusive widening shared by the character-wise operators: include the
end character when it is not at end of line. -/
def inclusiveEnd (d : Doc) (e : Nat × Nat) : Nat × Nat :=
  let line := if e.1 < d.lines.length then d.lines.getD e.1 [] else []
  if e.2 < line.length then (e.1, e.2 + 1) else e

/-- operator_delete (d). -/
def operator_delete : OperatorFunc := fun d s start e t =>
  if t = .linewise then
    let sr := min start.1 e.1
    let er := max start.1 e.1
    let (deleted, d) := d.delete_lines sr er
    (d, s.yank_to_register deleted true, ⟨true, deleted, false⟩)
  else
    let (start, e) := if posLt e start then (e, start) else (start, e)
    let e := if t = .inclusive then inclusiveEnd d e else e
    let (deleted, d) := d.delete_range start e
    (d, s.yank_to_register deleted false, ⟨true, deleted, false⟩)

/-- operator_change (c): delete, then signal insert-mode entry. -/
def operator_change : OperatorFunc := fun d s start e t =>
  let (d, s, r) := operator_delete d s start e t
  (d, s, { r with enter_insert := true })

/-- operator_yank (y): copies into the registers, never mutates. -/
def operator_yank : OperatorFunc := fun d s start e t =>
  if t = .linewise then
    let sr := min start.1 e.1
    let er := max start.1 e.1
    let text := d.get_line_range sr er
    (d, s.yank_to_register text true, {})
  else
    let (start, e) := if posLt e start then (e, start) else (start, e)
    let e := if t = .inclusive then inclusiveEnd d e else e
    let text := d.get_text_between start e
    (d, s.yank_to_register text false, {})

/-- operator_indent (>): prepends four spaces to each line of the range
(the row bound is checked against the line list captured before the loop). -/
def operator_indent : OperatorFunc := fun d s start e _ =>
  let sr := min start.1 e.1
  let er := max start.1 e.1
  let origLen := d.lines.length
  let d := (List.range' sr (er + 1 - sr)).foldl
    (fun d row =>
      if row < origLen then d.replace_text (row, 0) (row, 0) "    ".data else d)
    d
  (d, s, {})

/-- Number of leading characters operator_dedent strips: spaces up to four,
or a single tab ends the scan. -/
def dedentCount : List Char → Nat → Nat
  | [], n => n
  | c :: rest, n =>
    if c = ' ' then dedentCount rest (n + 1)
    else if c = '\t' then n + 1
    else n

/-- operator_dedent (<): strips up to one indent unit per line, computed
from the line list captured before the loop. -/
def operator_dedent : OperatorFunc := fun d s start e _ =>
  let sr := min start.1 e.1
  let er := max start.1 e.1
  let orig := d.lines
  let d := (List.range' sr (er + 1 - sr)).foldl
    (fun d row =>
      if row < orig.length then
        let k := dedentCount ((orig.getD row []).take 4) 0
        if 0 < k then (d.delete_range (row, 0) (row, k)).2 else d
      else d)
    d
  (d, s, {})

/-- Shared body of the case operators: normalize, widen inclusively,
replace the range text by its image under `f`. -/
def caseOperator (f : List Char → List Char) : OperatorFunc :=
  fun d s start e t =>
    let (start, e) := if posLt e start then (e, start) else (start, e)
    let e := if t = .inclusive then inclusiveEnd d e else e
    let text := d.get_text_between start e
    (d.replace_text start e (f text), s, {})

/-- operator_lowercase (gu). -/
def operator_lowercase : OperatorFunc :=
  caseOperator (List.map Char.toLower)

/-- operator_uppercase (gU). -/
def operator_uppercase : OperatorFunc :=
  caseOperator (List.map Char.toUpper)

/-- operator_swap_case (g~). -/
def operator_swap_case : OperatorFunc :=
  caseOperator (List.map (fun c => if c.isUpper then c.toLower else c.toUpper))

/-- The OPERATOR_HANDLERS dict (operators.py). -/
def OPERATOR_HANDLERS : List (String × OperatorFunc) :=
  [("operator_delete", operator_delete),
   ("operator_change", operator_change),
   ("operator_yank", operator_yank),
   ("operator_indent", operator_indent),
   ("operator_dedent", operator_dedent),
   ("operator_lowercase", operator_lowercase),
   ("operator_uppercase", operator_uppercase),
   ("operator_swap_case", operator_swap_case)]

/-- get_operator_handler (operators.py). -/
def get_operator_handler (name : String) : Option OperatorFunc :=
  tableGet OPERATOR_HANDLERS name

-- ─────────────────────────────────────────────────────────────────
-- Text objects (text_objects.py)
-- ─────────────────────────────────────────────────────────────────

/-- TextObjectResult (text_objects.py). -/
structure TextObjectResult where
  start : Nat × Nat
  stop : Nat × Nat
  type : TextObjectType := .exclusive
  failed : Bool := false
deriving DecidableEq

/-- Text object functions. -/
abbrev TextObjectFunc := Doc → VimState → Nat → TextObjectResult

/-- textobj_inner_word / textobj_inner_word_big (iw/iW). -/
def textobj_inner_word_fn (big : Bool) : TextObjectFunc := fun d _ _ =>
  let (sc, ec) := d.get_word_boundaries big
  ⟨(d.cursor_row, sc), (d.cursor_row, ec), .exclusive, false⟩

/-- textobj_outer_word / textobj_outer_word_big (aw/aW). -/
def textobj_outer_word_fn (big : Bool) : TextObjectFunc := fun d _ _ =>
  let (sc, ec) := d.get_outer_word_boundaries big
  ⟨(d.cursor_row, sc), (d.cursor_row, ec), .exclusive, false⟩

/-- The quote text object factory (_make_quote_textobj). -/
def quote_textobj (q : Char) (inner : Bool) : TextObjectFunc := fun d _ _ =>
  match d.get_quote_boundaries q inner with
  | none => ⟨d.cursor, d.cursor, .exclusive, true⟩
  | some (s, e) => ⟨s, e, .exclusive, false⟩

/-- The bracket text object factory (_make_bracket_textobj). -/
def bracket_textobj (o c : Char) (inner : Bool) : TextObjectFunc := fun d _ _ =>
  match d.get_bracket_boundaries o c inner with
  | none => ⟨d.cursor, d.cursor, .exclusive, true⟩
  | some (s, e) => ⟨s, e, .exclusive, false⟩

/-- The TEXT_OBJECT_HANDLERS dict (text_objects.py). -/
def TEXT_OBJECT_HANDLERS : List (String × TextObjectFunc) :=
  [("textobj_inner_word", textobj_inner_word_fn false),
   ("textobj_outer_word", textobj_outer_word_fn false),
   ("textobj_inner_word_big", textobj_inner_word_fn true),
   ("textobj_outer_word_big", textobj_outer_word_fn true),
   ("textobj_inner_double_quote", quote_textobj '"' true),
   ("textobj_outer_double_quote", quote_textobj '"' false),
   ("textobj_inner_single_quote", quote_textobj squote true),
   ("textobj_outer_single_quote", quote_textobj squote false),
   ("textobj_inner_backtick", quote_textobj bquote true),
   ("textobj_outer_backtick", quote_textobj bquote false),
   ("textobj_inner_paren", bracket_textobj '(' ')' true),
   ("textobj_outer_paren", bracket_textobj '(' ')' false),
   ("textobj_inner_bracket", bracket_textobj '[' ']' true),
   ("textobj_outer_bracket", bracket_textobj '[' ']' false),
   ("textobj_inner_brace", bracket_textobj (Char.ofNat 123) (Char.ofNat 125) true),
   ("textobj_outer_brace", bracket_textobj (Char.ofNat 123) (Char.ofNat 125) false),
   ("textobj_inner_angle", bracket_textobj '<' '>' true),
   ("textobj_outer_angle", bracket_textobj '<' '>' false)]

/-- get_text_object_handler (text_objects.py). -/
def get_text_object_handler (name : String) : Option TextObjectFunc :=
  tableGet TEXT_OBJECT_HANDLERS name

-- ─────────────────────────────────────────────────────────────────
-- Command mode (command.py)
-- ─────────────────────────────────────────────────────────────────

/-- CommandAction (command.py). -/
inductive CommandAction where
  | noneAction | quit | quitForce | write | writeQuit
deriving DecidableEq

/-- CommandResult (command.py). -/
structure CommandResult where
  action : CommandAction := .noneAction
  message : String := ""
  error : Bool := false
deriving DecidableEq

/-- Python `str.strip()`: whitespace removed from both ends. -/
def stripChars (l : List Char) : List Char :=
  ((l.dropWhile isSpaceChar).reverse.dropWhile isSpaceChar).reverse

/-- VimCommandHandler._parse_and_execute: `cmd` is already stripped; the
first whitespace-separated token is lowercased and dispatched. -/
def parse_and_execute (cmd : List Char) : CommandResult :=
  if cmd = [] then {}
  else
    let base := (cmd.takeWhile (fun c => ¬ isSpaceChar c)).map Char.toLower
    if base = "q".data ∨ base = "quit".data then { action := .quit }
    else if base = "q!".data ∨ base = "quit!".data then { action := .quitForce }
    else if base = "w".data ∨ base = "write".data then
      { action := .write, message := "Query saved to history" }
    else if base = "wq".data ∨ base = "x".data ∨ base = "exit".data then
      { action := .writeQuit }
    else if base = "h".data ∨ base = "help".data then
      { message := "Commands: :q (quit), :w (save), :wq (save & quit), :q! (force quit)" }
    else
      { error := true, message := "Unknown command: " ++ String.mk cmd }

/-- VimCommandHandler.execute: strip the buffer, clear it, dispatch. -/
def command_execute (buf : List Char) : List Char × CommandResult :=
  ([], parse_and_execute (stripChars buf))

-- ─────────────────────────────────────────────────────────────────
-- Engine controller (engine.py)
-- ─────────────────────────────────────────────────────────────────

/-- KeyResult (engine.py). -/
structure KeyResult where
  consumed : Bool := true
  enter_insert : Bool := false
  show_command_line : Bool := false
  command_text : String := ""
  command_action : Option CommandAction := none
  message : String := ""
deriving DecidableEq

/-- VimEngine: the vim state plus the engine-level buffers (multi-char key
prefix, pending single-char command, command-line buffer) and the host doc. -/
structure Engine where
  doc : Doc
  vim : VimState := {}
  key_buffer : String := ""
  pending_char_cmd : Option String := none
  command_buffer : List Char := []
deriving DecidableEq

/-- The escape key aliases checked throughout engine.py. -/
def isEscapeKey (k : String) : Bool :=
  k = "escape" || k = "ctrl+[" || k = "ctrl+c"

/-- Python `min` on positions (lexicographic). -/
def posMin (a b : Nat × Nat) : Nat × Nat := if posLt b a then b else a

/-- Python `max` on positions (lexicographic). -/
def posMax (a b : Nat × Nat) : Nat × Nat := if posLt b a then a else b

/-- VimEngine.enter_insert_mode. -/
def Engine.enter_insert_mode (e : Engine) : Engine :=
  let vim := e.vim.enter_mode .insert
  { e with vim := { vim with insert_start := some e.doc.cursor } }

/-- VimEngine.exit_insert_mode: back to normal, cursor one column left. -/
def Engine.exit_insert_mode (e : Engine) : Engine :=
  let e := { e with vim := e.vim.enter_mode .normal }
  if 0 < e.doc.cursor_col then
    { e with doc := e.doc.move_cursor (e.doc.get_cursor_left 1) }
  else e

/-- VimEngine.enter_visual_mode: records the anchor; in line mode the whole
current line is selected immediately. -/
def Engine.enter_visual_mode (e : Engine) (line_mode : Bool) : Engine :=
  let anchor := e.doc.cursor
  if line_mode then
    let vim := e.vim.start_visual anchor .visualLine
    let row := anchor.1
    let doc := (e.doc.move_cursor (row, 0)).move_cursor
      (row, (e.doc.lines.getD row []).length)
    { e with vim := vim, doc := doc }
  else
    { e with vim := e.vim.start_visual anchor .visual }

/-- VimEngine.exit_visual_mode. -/
def Engine.exit_visual_mode (e : Engine) : Engine :=
  let e := { e with vim := e.vim.enter_mode .normal }
  { e with doc := e.doc.move_cursor e.doc.cursor }

/-- VimEngine._clamp_cursor_to_document. -/
def Engine.clamp_cursor (e : Engine) : Engine :=
  let (row, col) := e.doc.cursor
  let lc := e.doc.line_count
  let row := if lc ≤ row then lc - 1 else row
  let col :=
    if 0 < lc then
      let len := (e.doc.lines.getD row []).length
      min col (len - 1)
    else 0
  { e with doc := e.doc.move_cursor (row, col) }

/-- VimEngine._replace_char (the `r` command). -/
def Engine.replace_char (e : Engine) (ch : Char) : Engine × KeyResult :=
  let (row, col) := e.doc.cursor
  let line := e.doc.current_line
  if col < line.length then
    ({ e with doc := e.doc.replace_text (row, col) (row, col + 1) [ch] }, {})
  else (e, {})

/-- VimEngine._execute_motion. -/
def Engine.execute_motion (e : Engine) (name : String) : Engine × KeyResult :=
  match get_motion_handler name with
  | none => (e, { consumed := false })
  | some handler =>
    let (vim, count) := e.vim.consume_count
    let (res, vim) := handler e.doc vim count
    let doc := if ¬ res.failed then e.doc.move_cursor res.position else e.doc
    ({ e with vim := vim, doc := doc }, {})

/-- Shared cancel path: reset the operator and return to normal mode. -/
def Engine.cancelOperator (e : Engine) : Engine :=
  { e with vim := e.vim.reset_operator.enter_mode .normal }

/-- VimEngine._execute_line_operator (the dd/yy/cc body). -/
def Engine.execute_line_operator (e : Engine) (name : String) :
    Engine × KeyResult :=
  match get_operator_handler name with
  | none => (e.cancelOperator, {})
  | some op =>
    let count := e.vim.get_effective_count
    let row := e.doc.cursor_row
    let start := (row, 0)
    let stop := (min (row + count - 1) (e.doc.line_count - 1), 0)
    let (doc, vim, res) := op e.doc e.vim start stop .linewise
    let e := { e with doc := doc, vim := vim }.cancelOperator
    if res.enter_insert then (e.enter_insert_mode, { enter_insert := true })
    else (e, {})

/-- VimEngine._start_operator: a repeated operator key takes the line
shortcut, otherwise the operator becomes pending. -/
def Engine.start_operator (e : Engine) (name key : String) :
    Engine × KeyResult :=
  if e.vim.pending_operator = some key then e.execute_line_operator name
  else
    let vim := { e.vim with pending_operator := some key }
    let (vim, c) := vim.consume_count
    let vim := { vim with operator_count := c }.enter_mode .opPending
    ({ e with vim := vim }, {})

/-- VimEngine._execute_operator_with_motion. -/
def Engine.execute_operator_with_motion (e : Engine) (name : String) :
    Engine × KeyResult :=
  match get_motion_handler name with
  | none => (e.cancelOperator, {})
  | some handler =>
    let count := e.vim.get_effective_count
    let (res, vim) := handler e.doc e.vim count
    let e := { e with vim := vim }
    if res.failed then (e.cancelOperator, {})
    else
      match e.vim.pending_operator with
      | none => (e.cancelOperator, {})
      | some op_key =>
        match get_operator op_key with
        | none => (e.cancelOperator, {})
        | some ob =>
          match get_operator_handler ob.handler with
          | none => (e.cancelOperator, {})
          | some op =>
            let start := e.doc.cursor
            let (doc, vim, opres) := op e.doc e.vim start res.position res.type
            let e := { e with doc := doc, vim := vim }.cancelOperator
            if opres.enter_insert then
              (e.enter_insert_mode, { enter_insert := true })
            else (e, {})

/-- VimEngine._execute_operator_with_text_object. -/
def Engine.execute_operator_with_text_object (e : Engine) (name : String) :
    Engine × KeyResult :=
  match get_text_object_handler name with
  | none => (e.cancelOperator, {})
  | some handler =>
    let count := e.vim.get_effective_count
    let res := handler e.doc e.vim count
    if res.failed then (e.cancelOperator, {})
    else
      match e.vim.pending_operator with
      | none => (e.cancelOperator, {})
      | some op_key =>
        match get_operator op_key with
        | none => (e.cancelOperator, {})
        | some ob =>
          match get_operator_handler ob.handler with
          | none => (e.cancelOperator, {})
          | some op =>
            let (doc, vim, opres) := op e.doc e.vim res.start res.stop res.type
            let e := { e with doc := doc, vim := vim }.cancelOperator
            if opres.enter_insert then
              (e.enter_insert_mode, { enter_insert := true })
            else (e, {})

/-- The x-loop of action_delete_char: `count` deletions at a fixed column. -/
def deleteCharLoop (d : Doc) (s : VimState) (row col : Nat) :
    Nat → Doc × VimState
  | 0 => (d, s)
  | n + 1 =>
    let line := d.current_line
    if col < line.length then
      let (deleted, d) := d.delete_range (row, col) (row, col + 1)
      let s := s.yank_to_register deleted false
      deleteCharLoop d s row col n
    else deleteCharLoop d s row col n

/-- The X-loop of action_delete_char_before: deletions walking left. -/
def deleteCharBeforeLoop (d : Doc) (s : VimState) (row : Nat) :
    Nat → Nat → Doc × VimState
  | _, 0 => (d, s)
  | col, n + 1 =>
    if 0 < col then
      let (deleted, d) := d.delete_range (row, col - 1) (row, col)
      let s := s.yank_to_register deleted false
      deleteCharBeforeLoop d s row (col - 1) n
    else deleteCharBeforeLoop d s row col n

/-- VimEngine._execute_action: the immediate single-key actions.  The host
`undo()`/`redo()` calls are external (§6) and modelled as the identity on
the buffer; the cursor clamps around them are the engine's own code. -/
def Engine.execute_action (e : Engine) (name : String) : Engine × KeyResult :=
  let (vim, count) := e.vim.consume_count
  let e := { e with vim := vim }
  if name = "action_insert" then
    (e.enter_insert_mode, { enter_insert := true })
  else if name = "action_insert_line_start" then
    let e := { e with doc := e.doc.move_cursor e.doc.get_first_non_blank }
    (e.enter_insert_mode, { enter_insert := true })
  else if name = "action_append" then
    let (row, col) := e.doc.cursor
    let e := { e with doc := e.doc.move_cursor (row, min (col + 1) e.doc.current_line_length) }
    (e.enter_insert_mode, { enter_insert := true })
  else if name = "action_append_line_end" then
    let e := { e with doc := e.doc.move_cursor (e.doc.cursor_row, e.doc.current_line_length) }
    (e.enter_insert_mode, { enter_insert := true })
  else if name = "action_open_below" then
    let row := e.doc.cursor_row
    let doc := (e.doc.move_cursor (row, e.doc.current_line_length)).insert_text ['\n']
    ({ e with doc := doc }.enter_insert_mode, { enter_insert := true })
  else if name = "action_open_above" then
    let row := e.doc.cursor_row
    let doc :=
      if row = 0 then
        (((e.doc.move_cursor (0, 0)).insert_text ['\n']).move_cursor (0, 0))
      else
        (e.doc.move_cursor (row - 1, (e.doc.lines.getD (row - 1) []).length)).insert_text ['\n']
    ({ e with doc := doc }.enter_insert_mode, { enter_insert := true })
  else if name = "action_substitute" then
    let (row, col) := e.doc.cursor
    let line := e.doc.current_line
    let e :=
      if col < line.length then
        { e with doc := (e.doc.delete_range (row, col) (row, col + 1)).2 }
      else e
    (e.enter_insert_mode, { enter_insert := true })
  else if name = "action_substitute_line" then
    let row := e.doc.cursor_row
    let line := e.doc.current_line
    let indent := (line.takeWhile isSpaceChar).length
    let doc := ((e.doc.delete_range (row, indent) (row, line.length)).2).move_cursor (row, indent)
    ({ e with doc := doc }.enter_insert_mode, { enter_insert := true })
  else if name = "action_change_to_eol" then
    let (row, col) := e.doc.cursor
    let len := e.doc.current_line_length
    let e :=
      if col < len then
        let (deleted, doc) := e.doc.delete_range (row, col) (row, len)
        { e with doc := doc, vim := e.vim.yank_to_register deleted false }
      else e
    (e.enter_insert_mode, { enter_insert := true })
  else if name = "action_delete_to_eol" then
    let (row, col) := e.doc.cursor
    let len := e.doc.current_line_length
    if col < len then
      let (deleted, doc) := e.doc.delete_range (row, col) (row, len)
      ({ e with doc := doc, vim := e.vim.yank_to_register deleted false }, {})
    else (e, {})
  else if name = "action_delete_char" then
    let (row, col) := e.doc.cursor
    let (doc, vim) := deleteCharLoop e.doc e.vim row col count
    ({ e with doc := doc, vim := vim }, {})
  else if name = "action_delete_char_before" then
    let (row, col) := e.doc.cursor
    let (doc, vim) := deleteCharBeforeLoop e.doc e.vim row col count
    ({ e with doc := doc, vim := vim }, {})
  else if name = "action_paste_after" then
    let reg := e.vim.get_register_content none
    if reg.content ≠ [] then
      if reg.linewise then
        let row := e.doc.cursor_row
        let doc := (e.doc.move_cursor (row, e.doc.current_line_length)).insert_text
          ('\n' :: reg.content)
        ({ e with doc := doc }, {})
      else
        let (row, col) := e.doc.cursor
        let col := if col < e.doc.current_line_length then col + 1 else col
        let doc := (e.doc.move_cursor (row, col)).insert_text reg.content
        ({ e with doc := doc }, {})
    else (e, {})
  else if name = "action_paste_before" then
    let reg := e.vim.get_register_content none
    if reg.content ≠ [] then
      if reg.linewise then
        let row := e.doc.cursor_row
        let doc :=
          if row = 0 then
            (((e.doc.move_cursor (0, 0)).insert_text (reg.content ++ ['\n'])).move_cursor (0, 0))
          else
            (e.doc.move_cursor (row - 1, (e.doc.lines.getD (row - 1) []).length)).insert_text
              ('\n' :: reg.content)
        ({ e with doc := doc }, {})
      else
        ({ e with doc := e.doc.insert_text reg.content }, {})
    else (e, {})
  else if name = "action_undo" then
    (e.clamp_cursor.clamp_cursor, {})
  else if name = "action_redo" then
    (e.clamp_cursor.clamp_cursor, {})
  else if name = "action_join_lines" then
    let row := e.doc.cursor_row
    if row < e.doc.line_count - 1 then
      let line_end := (row, e.doc.current_line_length)
      let next_line := e.doc.lines.getD (row + 1) []
      let fns := (next_line.takeWhile isSpaceChar).length
      let doc := (e.doc.delete_range line_end (row + 1, fns)).2
      let doc := (doc.move_cursor line_end).insert_text [' ']
      ({ e with doc := doc }, {})
    else (e, {})
  else if name = "action_swap_case_char" then
    let (row, col) := e.doc.cursor
    let line := e.doc.current_line
    if col < line.length then
      let c := line.getD col ' '
      let swapped := if c.isUpper then c.toLower else c.toUpper
      let doc := e.doc.replace_text (row, col) (row, col + 1) [swapped]
      let doc := if col < line.length - 1 then doc.move_cursor (row, col + 1) else doc
      ({ e with doc := doc }, {})
    else (e, {})
  else if name = "action_escape" then
    if e.vim.mode ≠ .normal then
      ({ e with vim := e.vim.enter_mode .normal }, {})
    else (e, {})
  else (e, { consumed := false })

/-- VimEngine.enter_command_mode. -/
def Engine.enter_command_mode (e : Engine) : Engine :=
  { e with command_buffer := [], vim := e.vim.enter_mode .command }

/-- VimEngine._execute_mode_switch (note: `mode_visual_block` has no branch
and falls through unconsumed). -/
def Engine.execute_mode_switch (e : Engine) (name : String) :
    Engine × KeyResult :=
  if name = "mode_visual" then (e.enter_visual_mode false, {})
  else if name = "mode_visual_line" then (e.enter_visual_mode true, {})
  else if name = "mode_command" then
    (e.enter_command_mode, { show_command_line := true, command_text := ":" })
  else (e, { consumed := false })

/-- VimEngine._handle_pending_char: the single character consumed after
f/F/t/T/r (and after the register-select `"`, which has no branch below and
therefore falls through with the key consumed and the selection dropped). -/
def Engine.handle_pending_char (e : Engine) (key : String) :
    Engine × KeyResult :=
  let cmd := e.pending_char_cmd.getD ""
  let e := { e with pending_char_cmd := none }
  if key.data.length ≠ 1 then (e, {})
  else
    let ch := key.data.getD 0 ' '
    let (vim, count) := e.vim.consume_count
    let e := { e with vim := vim }
    if cmd = "f" ∨ cmd = "F" ∨ cmd = "t" ∨ cmd = "T" then
      let forward := cmd = "f" ∨ cmd = "t"
      let before := cmd = "t" ∨ cmd = "T"
      let (res, vim) := motion_find_char e.doc e.vim count ch forward before
      let doc := if ¬ res.failed then e.doc.move_cursor res.position else e.doc
      ({ e with vim := vim, doc := doc }, {})
    else if cmd = "r" then e.replace_char ch
    else (e, {})

/-- VimEngine._handle_key_buffer: complete a multi-char sequence in normal
mode; an unrecognized sequence is consumed and discarded. -/
def Engine.handle_key_buffer (e : Engine) (key : String) :
    Engine × KeyResult :=
  let seq := e.key_buffer ++ key
  let e := { e with key_buffer := "" }
  match get_motion seq with
  | some b => e.execute_motion b.handler
  | none =>
    match get_operator seq with
    | some b => e.start_operator b.handler seq
    | none => (e, {})

/-- VimEngine._handle_normal_mode. -/
def Engine.handle_normal_mode (e : Engine) (key : String) :
    Engine × KeyResult :=
  if e.pending_char_cmd.isSome then e.handle_pending_char key
  else if e.key_buffer ≠ "" then e.handle_key_buffer key
  else
    let (vim, digit) := e.vim.accumulate_digit key
    if digit then ({ e with vim := vim }, {})
    else
      match keymapLookup key "normal" with
      | none =>
        if key = "g" then ({ e with key_buffer := "g" }, {})
        else (e, { consumed := false })
      | some b =>
        match b.type with
        | .motion => e.execute_motion b.handler
        | .operatorB => e.start_operator b.handler key
        | .action => e.execute_action b.handler
        | .modeSwitch => e.execute_mode_switch b.handler
        | .pendingB => ({ e with pending_char_cmd := some key }, {})
        | .textObject => (e, { consumed := false })

/-- VimEngine._handle_operator_pending. -/
def Engine.handle_operator_pending (e : Engine) (key : String) :
    Engine × KeyResult :=
  if isEscapeKey key then (e.cancelOperator, {})
  else
    let (vim, digit) := e.vim.accumulate_digit key
    if digit then ({ e with vim := vim }, {})
    else if key = "i" ∨ key = "a" then ({ e with key_buffer := key }, {})
    else if e.key_buffer = "i" ∨ e.key_buffer = "a" then
      let tkey := e.key_buffer ++ key
      let e := { e with key_buffer := "" }
      match get_text_object tkey with
      | some b => e.execute_operator_with_text_object b.handler
      | none => (e.cancelOperator, {})
    else if key = "g" then ({ e with key_buffer := "g" }, {})
    else if e.key_buffer = "g" then
      let mkey := "g" ++ key
      let e := { e with key_buffer := "" }
      match get_motion mkey with
      | some b => e.execute_operator_with_motion b.handler
      | none => (e.cancelOperator, {})
    else
      match get_motion key with
      | some b => e.execute_operator_with_motion b.handler
      | none =>
        if (get_pending key).isSome ∧
            (key = "f" ∨ key = "F" ∨ key = "t" ∨ key = "T") then
          ({ e with pending_char_cmd := some key }, {})
        else (e.cancelOperator, {})

/-- VimEngine._execute_visual_motion: move or, in visual-line mode, snap
the selection to whole lines between the anchor row and the target row. -/
def Engine.execute_visual_motion (e : Engine) (name : String) :
    Engine × KeyResult :=
  match get_motion_handler name with
  | none => (e, { consumed := false })
  | some handler =>
    let (vim, count) := e.vim.consume_count
    let (res, vim) := handler e.doc vim count
    let e := { e with vim := vim }
    if res.failed then (e, {})
    else if e.vim.mode = .visualLine then
      match e.vim.visual_anchor with
      | some a =>
        let ar := a.1
        let dr := res.position.1
        let doc :=
          if ar ≤ dr then
            e.doc.set_selection (ar, 0) (dr, (e.doc.lines.getD dr []).length)
          else
            e.doc.set_selection (ar, (e.doc.lines.getD ar []).length) (dr, 0)
        ({ e with doc := doc }, {})
      | none => ({ e with doc := e.doc.move_cursor res.position }, {})
    else ({ e with doc := e.doc.move_cursor res.position }, {})

/-- VimEngine._execute_visual_operator: apply an operator to the
anchor-cursor range and leave visual mode. -/
def Engine.execute_visual_operator (e : Engine) (name : String)
    (linewise : Bool) : Engine × KeyResult :=
  match get_operator_handler name with
  | none => (e.exit_visual_mode, {})
  | some op =>
    match e.vim.visual_anchor with
    | none => (e.exit_visual_mode, {})
    | some anchor =>
      let cursor := e.doc.cursor
      let start := posMin anchor cursor
      let stop := posMax anchor cursor
      let t : TextObjectType := if linewise then .linewise else .inclusive
      let (doc, vim, res) := op e.doc e.vim start stop t
      let e := { e with doc := doc, vim := vim }.exit_visual_mode
      if res.enter_insert then (e.enter_insert_mode, { enter_insert := true })
      else (e, {})

/-- VimEngine._execute_visual_action (i/a insert at a selection boundary). -/
def Engine.execute_visual_action (e : Engine) (name : String)
    (linewise : Bool) : Engine × KeyResult :=
  match e.vim.visual_anchor with
  | none => (e.exit_visual_mode, {})
  | some anchor =>
    let cursor := e.doc.cursor
    let start := posMin anchor cursor
    let stop := posMax anchor cursor
    let target :=
      if name = "action_visual_insert" then
        if linewise then (start.1, 0) else start
      else if name = "action_visual_append" then
        if linewise then (stop.1, (e.doc.lines.getD stop.1 []).length)
        else (stop.1, min (stop.2 + 1) (e.doc.lines.getD stop.1 []).length)
      else cursor
    let e := e.exit_visual_mode
    let e := { e with doc := e.doc.move_cursor target }
    (e.enter_insert_mode, { enter_insert := true })

/-- VimEngine._handle_visual_key_buffer. -/
def Engine.handle_visual_key_buffer (e : Engine) (key : String) :
    Engine × KeyResult :=
  let seq := e.key_buffer ++ key
  let e := { e with key_buffer := "" }
  match get_motion seq with
  | some b => e.execute_visual_motion b.handler
  | none => (e, {})

/-- VimEngine._handle_visual_mode. -/
def Engine.handle_visual_mode (e : Engine) (key : String) :
    Engine × KeyResult :=
  if e.key_buffer ≠ "" then e.handle_visual_key_buffer key
  else
    let (vim, digit) := e.vim.accumulate_digit key
    if digit then ({ e with vim := vim }, {})
    else if isEscapeKey key then (e.exit_visual_mode, {})
    else if key = "v" then (e.exit_visual_mode, {})
    else if key = "V" then ({ e with vim := e.vim.enter_mode .visualLine }, {})
    else
      match get_visual_action key with
      | some b => e.execute_visual_action b.handler false
      | none =>
        if key = "x" then e.execute_visual_operator "operator_delete" false
        else if key = "s" then e.execute_visual_operator "operator_change" false
        else
          match get_operator key with
          | some b => e.execute_visual_operator b.handler false
          | none =>
            if key = "g" then ({ e with key_buffer := "g" }, {})
            else
              match get_motion key with
              | some b => e.execute_visual_motion b.handler
              | none => (e, { consumed := false })

/-- VimEngine._handle_visual_line_mode. -/
def Engine.handle_visual_line_mode (e : Engine) (key : String) :
    Engine × KeyResult :=
  if e.key_buffer ≠ "" then e.handle_visual_key_buffer key
  else
    let (vim, digit) := e.vim.accumulate_digit key
    if digit then ({ e with vim := vim }, {})
    else if isEscapeKey key then (e.exit_visual_mode, {})
    else if key = "V" then (e.exit_visual_mode, {})
    else if key = "v" then ({ e with vim := e.vim.enter_mode .visual }, {})
    else
      match get_visual_action key with
      | some b => e.execute_visual_action b.handler true
      | none =>
        if key = "x" then e.execute_visual_operator "operator_delete" true
        else if key = "s" then e.execute_visual_operator "operator_change" true
        else
          match get_operator key with
          | some b => e.execute_visual_operator b.handler true
          | none =>
            if key = "g" then ({ e with key_buffer := "g" }, {})
            else
              match get_motion key with
              | some b => e.execute_visual_motion b.handler
              | none => (e, { consumed := false })

/-- VimEngine._handle_insert_mode. -/
def Engine.handle_insert_mode (e : Engine) (key : String) :
    Engine × KeyResult :=
  if isEscapeKey key then (e.exit_insert_mode, {})
  else (e, { consumed := false })

/-- VimEngine._handle_command_mode. -/
def Engine.handle_command_mode (e : Engine) (key : String) :
    Engine × KeyResult :=
  if isEscapeKey key then
    ({ e with command_buffer := [], vim := e.vim.enter_mode .normal }, {})
  else if key = "enter" then
    let (buf, result) := command_execute e.command_buffer
    ({ e with command_buffer := buf, vim := e.vim.enter_mode .normal },
     { command_action := some result.action, message := result.message })
  else if key = "backspace" then
    if e.command_buffer = [] then
      ({ e with vim := e.vim.enter_mode .normal }, {})
    else ({ e with command_buffer := e.command_buffer.dropLast }, {})
  else if key.data.length = 1 then
    ({ e with command_buffer := e.command_buffer ++ key.data }, {})
  else (e, {})

/-- VimEngine.handle_key: dispatch on the current mode (VisualBlock and
Replace have no handler and leave the key unconsumed). -/
def Engine.handle_key (e : Engine) (key : String) : Engine × KeyResult :=
  match e.vim.mode with
  | .insert => e.handle_insert_mode key
  | .normal => e.handle_normal_mode key
  | .visual => e.handle_visual_mode key
  | .visualLine => e.handle_visual_line_mode key
  | .opPending => e.handle_operator_pending key
  | .command => e.handle_command_mode key
  | _ => (e, { consumed := false })

/-- Run a key sequence, keeping the last KeyResult. -/
def Engine.run (e : Engine) : List String → Engine × KeyResult
  | [] => (e, {})
  | [k] => e.handle_key k
  | k :: ks => ((e.handle_key k).1).run ks

/-- Fresh engine over a document, as VimEngine.__init__ builds it. -/
def initEngine (d : Doc) : Engine := { doc := d }

-- ─────────────────────────────────────────────────────────────────
-- Concrete documents used by the claim theorems
-- ─────────────────────────────────────────────────────────────────

/-- A five-line document with the cursor on line 0 (spec Scenario C). -/
def doc5lines : Doc := { text := "l0\nl1\nl2\nl3\nl4".data, cursor := (0, 0) }

/-- Single-line document `hello world`, cursor at the origin. -/
def docHello : Doc := { text := "hello world".data, cursor := (0, 0) }

/-- Single-line document `abc`, cursor at the origin. -/
def docAbc : Doc := { text := "abc".data, cursor := (0, 0) }

/-- Scenario B document: `foo(bar, baz)` with the cursor at column 5. -/
def docParen : Doc := { text := "foo(bar, baz)".data, cursor := (0, 5) }

-- ─────────────────────────────────────────────────────────────────
-- Register bank lemmas
-- ─────────────────────────────────────────────────────────────────

theorem find?_setReg_map (rs : List (String × Register)) (k : String)
    (v : Register) (h : (rs.any fun p => p.1 = k) = true) :
    (rs.map fun p => if p.1 = k then (k, v) else p).find?
      (fun p => p.1 = k) = some (k, v) := by
  induction rs with
  | nil => simp at h
  | cons p rest ih =>
    simp only [List.map_cons]
    by_cases hp : p.1 = k
    · rw [if_pos hp, List.find?_cons_of_pos _ (by simp)]
    · rw [if_neg hp, List.find?_cons_of_neg _ (by simp [hp])]
      exact ih (by simpa [hp] using h)

theorem find?_setReg_map_ne (rs : List (String × Register)) (k k' : String)
    (v : Register) (h : k' ≠ k) :
    (rs.map fun p => if p.1 = k then (k, v) else p).find?
      (fun p => p.1 = k') = rs.find? (fun p => p.1 = k') := by
  induction rs with
  | nil => simp
  | cons p rest ih =>
    simp only [List.map_cons]
    by_cases hp : p.1 = k
    · rw [if_pos hp, List.find?_cons_of_neg _ (by simp [Ne.symm h]),
        List.find?_cons_of_neg _ (by simp [hp, Ne.symm h]), ih]
    · rw [if_neg hp]
      by_cases hp' : p.1 = k'
      · rw [List.find?_cons_of_pos _ (by simp [hp']),
          List.find?_cons_of_pos _ (by simp [hp'])]
      · rw [List.find?_cons_of_neg _ (by simp [hp']),
          List.find?_cons_of_neg _ (by simp [hp']), ih]

theorem getReg_setReg_same (rs : List (String × Register)) (k : String)
    (v : Register) : getReg (setReg rs k v) k = v := by
  unfold setReg
  by_cases h : (rs.any fun p => p.1 = k) = true
  · rw [if_pos h]
    unfold getReg
    rw [find?_setReg_map rs k v h]
  · rw [if_neg h]
    unfold getReg
    rw [List.find?_append]
    have hnone : rs.find? (fun p => p.1 = k) = none := by
      rw [List.find?_eq_none]
      intro x hx
      simp only [decide_eq_true_eq]
      intro hc
      exact h (List.any_eq_true.2 ⟨x, hx, by simp [hc]⟩)
    simp [hnone]

theorem getReg_setReg_ne (rs : List (String × Register)) (k k' : String)
    (v : Register) (h : k' ≠ k) :
    getReg (setReg rs k v) k' = getReg rs k' := by
  unfold setReg
  by_cases hany : (rs.any fun p => p.1 = k) = true
  · rw [if_pos hany]
    unfold getReg
    rw [find?_setReg_map_ne rs k k' v h]
  · rw [if_neg hany]
    unfold getReg
    rw [List.find?_append]
    cases hf : rs.find? (fun p => p.1 = k') <;> simp [hf, h, Ne.symm h]

/-- yank_to_register always stores the text in the unnamed register. -/
theorem yank_unnamed (s : VimState) (t : List Char) (lw : Bool) :
    getReg (s.yank_to_register t lw).registers "\""
      = { content := t, linewise := lw } := by
  by_cases hy : s.pending_operator = some "y" <;>
    by_cases hn : s.current_register ≠ "\"" ∧ s.current_register ≠ "0" ∧
      s.current_register ≠ "-" <;>
    simp only [VimState.yank_to_register, hy, hn, reduceIte]
  · rw [if_pos hn, getReg_setReg_ne _ _ _ _ (Ne.symm hn.1),
      getReg_setReg_ne _ _ _ _ (by decide), getReg_setReg_same]
  · rw [getReg_setReg_ne _ _ _ _ (by decide), getReg_setReg_same]
  · rw [if_pos hn, getReg_setReg_ne _ _ _ _ (Ne.symm hn.1), getReg_setReg_same]
  · rw [getReg_setReg_same]

theorem yank_reg0_of_pending_y (s : VimState) (t : List Char) (lw : Bool)
    (h : s.pending_operator = some "y") :
    getReg (s.yank_to_register t lw).registers "0"
      = { content := t, linewise := lw } := by
  by_cases hn : s.current_register ≠ "\"" ∧ s.current_register ≠ "0" ∧
      s.current_register ≠ "-"
  · simp only [VimState.yank_to_register, h, reduceIte]
    rw [if_pos hn, getReg_setReg_ne _ _ _ _ (Ne.symm hn.2.1), getReg_setReg_same]
  · simp only [VimState.yank_to_register, h, hn, reduceIte]
    rw [getReg_setReg_same]

theorem yank_reg0_of_not_y (s : VimState) (t : List Char) (lw : Bool)
    (h : ¬ s.pending_operator = some "y") :
    getReg (s.yank_to_register t lw).registers "0"
      = getReg s.registers "0" := by
  by_cases hn : s.current_register ≠ "\"" ∧ s.current_register ≠ "0" ∧
      s.current_register ≠ "-"
  · simp only [VimState.yank_to_register, h, reduceIte]
    rw [if_pos hn, getReg_setReg_ne _ _ _ _ (Ne.symm hn.2.1),
      getReg_setReg_ne _ _ _ _ (by decide)]
  · simp only [VimState.yank_to_register, h, hn, reduceIte]
    rw [getReg_setReg_ne _ _ _ _ (by decide)]

theorem enter_mode_registers (s : VimState) (m : VimMode) :
    (s.enter_mode m).registers = s.registers := by
  unfold VimState.enter_mode VimState.reset_operator
  dsimp only
  split <;> split <;> rfl
-- ─────────────────────────────────────────────────────────────────
-- C1: the double-operator shortcut is unreachable
-- ─────────────────────────────────────────────────────────────────

/-- C1: on a five-line document with the cursor at row 0, the key sequence
`3`,`d`,`d` is claimed to delete three lines; the code instead cancels the
pending operator at the second `d` (`_handle_operator_pending` has no branch
for a repeated operator key, so `_execute_line_operator` is unreachable from
the documented `dd`/`yy`/`cc` sequences) and the document is unchanged. -/
theorem c1_count_dd_cancels_instead_of_deleting :
    ((initEngine doc5lines).run ["3", "d", "d"]).1.doc.text = doc5lines.text ∧
    ((initEngine doc5lines).run ["3", "d", "d"]).1.doc.line_count = 5 ∧
    ((initEngine doc5lines).run ["3", "d", "d"]).1.vim.mode = .normal ∧
    ((initEngine doc5lines).run ["3", "d", "d"]).1.vim.pending_operator = none ∧
    ((initEngine doc5lines).run ["3", "d", "d"]).2.consumed = true := by
  decide

-- ─────────────────────────────────────────────────────────────────
-- C4: the register-select argument is consumed but discarded
-- ─────────────────────────────────────────────────────────────────

/-- C4: after `"` the next key is consumed as the argument, but
`_handle_pending_char` has no branch for the register-select command, so
`"a` followed by `yw` never writes register `a`: the selection is dropped
(`current_register` stays the unnamed register) and only the unnamed and
yank registers receive the text. -/
theorem c4_register_select_argument_dropped :
    ((initEngine docHello).run ["\"", "a"]).2.consumed = true ∧
    ((initEngine docHello).run ["\"", "a"]).1.pending_char_cmd = none ∧
    ((initEngine docHello).run ["\"", "a"]).1.vim.current_register = "\"" ∧
    ((initEngine docHello).run ["\"", "a", "y", "w"]).1.vim.current_register = "\"" ∧
    (getReg ((initEngine docHello).run ["\"", "a", "y", "w"]).1.vim.registers "\"").content
      = "hello ".data ∧
    (getReg ((initEngine docHello).run ["\"", "a", "y", "w"]).1.vim.registers "a").content
      = [] := by
  decide

-- ─────────────────────────────────────────────────────────────────
-- C2 counterexample: visual yank leaves register 0 stale
-- ─────────────────────────────────────────────────────────────────

/-- C2 counterexample: yanking the visual selection `ab` (keys `v`,`l`,`y`
on `abc`) writes the unnamed register but leaves register 0 with its prior
(empty) content, because `_execute_visual_operator` runs with no pending
operator and `yank_to_register` keys the register-0 update on
`pending_operator == "y"`. -/
theorem c2_visual_yank_leaves_yank_register_stale :
    (getReg ((initEngine docAbc).run ["v", "l", "y"]).1.vim.registers "\"").content
      = "ab".data ∧
    (getReg ((initEngine docAbc).run ["v", "l", "y"]).1.vim.registers "0").content
      = [] ∧
    "ab".data ≠ ([] : List Char) := by
  decide

-- ─────────────────────────────────────────────────────────────────
-- C2 amended: register routing
-- ─────────────────────────────────────────────────────────────────

/-- The text operator_yank copies for a range: whole lines for linewise
ranges, otherwise the normalized (and, for inclusive ranges, widened)
character span. -/
def yankedText (d : Doc) (a b : Nat × Nat) (t : TextObjectType) : List Char :=
  if t = .linewise then d.get_line_range (min a.1 b.1) (max a.1 b.1)
  else
    let (a, b) := if posLt b a then (b, a) else (a, b)
    let b := if t = .inclusive then inclusiveEnd d b else b
    d.get_text_between a b

/-- C2 (amended): the unnamed register always receives the yanked/deleted
text; register 0 receives the yanked text when the yank operator is pending
(operator-pending application such as `yw`), but keeps its prior value for
a yank applied to a visual selection (where no operator is pending) and for
every delete. -/
theorem c2_register_routing_amended :
    (∀ (d : Doc) (s : VimState) (a b : Nat × Nat) (t : TextObjectType),
      getReg ((operator_yank d s a b t).2.1).registers "\""
        = { content := yankedText d a b t, linewise := decide (t = .linewise) }) ∧
    (∀ (d : Doc) (s : VimState) (a b : Nat × Nat) (t : TextObjectType),
      s.pending_operator = some "y" →
      getReg ((operator_yank d s a b t).2.1).registers "0"
        = getReg ((operator_yank d s a b t).2.1).registers "\"") ∧
    (∀ (d : Doc) (s : VimState) (a b : Nat × Nat) (t : TextObjectType),
      s.pending_operator = none →
      getReg ((operator_yank d s a b t).2.1).registers "0"
        = getReg s.registers "0") ∧
    (∀ (d : Doc) (s : VimState) (a b : Nat × Nat) (t : TextObjectType),
      (getReg ((operator_delete d s a b t).2.1).registers "\"").content
        = ((operator_delete d s a b t).2.2).deleted_text) ∧
    (∀ (d : Doc) (s : VimState) (a b : Nat × Nat) (t : TextObjectType),
      ¬ s.pending_operator = some "y" →
      getReg ((operator_delete d s a b t).2.1).registers "0"
        = getReg s.registers "0") ∧
    (∀ (e : Engine) (lw : Bool), e.vim.pending_operator = none →
      getReg ((e.execute_visual_operator "operator_yank" lw).1).vim.registers "0"
        = getReg e.vim.registers "0") := by
  refine ⟨?_, ?_, ?_, ?_, ?_, ?_⟩
  · intro d s a b t
    by_cases ht : t = .linewise <;>
      simp only [operator_yank, yankedText, ht, reduceIte] <;>
      rw [yank_unnamed] <;> simp [ht]
  · intro d s a b t h
    by_cases ht : t = .linewise <;>
      simp only [operator_yank, ht, reduceIte] <;>
      rw [yank_reg0_of_pending_y _ _ _ h, yank_unnamed]
  · intro d s a b t h
    by_cases ht : t = .linewise <;>
      simp only [operator_yank, ht, reduceIte] <;>
      rw [yank_reg0_of_not_y _ _ _ (by simp [h])]
  · intro d s a b t
    by_cases ht : t = .linewise <;>
      simp only [operator_delete, ht, reduceIte] <;>
      rw [yank_unnamed]
  · intro d s a b t h
    by_cases ht : t = .linewise <;>
      simp only [operator_delete, ht, reduceIte] <;>
      rw [yank_reg0_of_not_y _ _ _ h]
  · intro e lw h
    have hop : get_operator_handler "operator_yank" = some operator_yank := rfl
    simp only [Engine.execute_visual_operator, hop]
    cases ha : e.vim.visual_anchor with
    | none =>
      simp only [Engine.exit_visual_mode, enter_mode_registers]
    | some anchor =>
      cases lw <;>
        simp only [Bool.false_eq_true, reduceIte, reduceCtorEq, operator_yank,
          Engine.exit_visual_mode, enter_mode_registers] <;>
        rw [yank_reg0_of_not_y _ _ _ (by simp [h])]

/-- Witness for the amended register-routing claim at concrete inputs. -/
theorem c2_register_routing_witness :
    getReg ((operator_yank docAbc
        { pending_operator := some "y" } (0, 0) (0, 1) .inclusive).2.1).registers "0"
      = getReg ((operator_yank docAbc
        { pending_operator := some "y" } (0, 0) (0, 1) .inclusive).2.1).registers "\"" ∧
    getReg ((operator_yank docAbc {} (0, 0) (0, 1) .inclusive).2.1).registers "0"
      = getReg ({} : VimState).registers "0" :=
  ⟨c2_register_routing_amended.2.1 docAbc _ (0, 0) (0, 1) .inclusive rfl,
   c2_register_routing_amended.2.2.1 docAbc {} (0, 0) (0, 1) .inclusive rfl⟩

-- ─────────────────────────────────────────────────────────────────
-- C5 counterexample: Escape in Normal mode is not consumed
-- ─────────────────────────────────────────────────────────────────

/-- C5 counterexample: in Normal mode with no pending state the `escape`
key falls through the keymap (its action binding lists only the insert,
visual and command modes), so the engine reports it unconsumed — the claim
says `consumed = true`.  The state is indeed unchanged. -/
theorem c5_escape_normal_reported_unconsumed :
    ((initEngine docAbc).handle_key "escape").2.consumed = false ∧
    ((initEngine docAbc).handle_key "escape").1 = initEngine docAbc := by
  decide

/-- The escape key is not a digit, so the count accumulator ignores it. -/
theorem accumulate_digit_escape (s : VimState) :
    s.accumulate_digit "escape" = (s, false) := by
  simp [VimState.accumulate_digit]

/-- C5 (amended): Escape in Normal mode with no pending single-char command
and an empty prefix buffer leaves the whole engine state unchanged, but the
key is reported unconsumed (rather than consumed as claimed): the escape
binding's modes exclude "normal", so the keymap lookup misses. -/
theorem c5_escape_normal_noop_amended (e : Engine) (h1 : e.vim.mode = .normal)
    (h2 : e.pending_char_cmd = none) (h3 : e.key_buffer = "") :
    e.handle_key "escape" = (e, { consumed := false }) := by
  simp only [Engine.handle_key, h1, Engine.handle_normal_mode, h2,
    Option.isSome_none, Bool.false_eq_true, reduceIte, h3, ne_eq,
    not_true_eq_false, accumulate_digit_escape,
    show keymapLookup "escape" "normal" = none from rfl]
  rw [if_neg (by decide : ¬ ("escape" = "g"))]

/-- Witness: the amended C5 claim at a concrete fresh engine. -/
theorem c5_escape_normal_noop_witness :
    (initEngine doc5lines).handle_key "escape"
      = (initEngine doc5lines, { consumed := false }) :=
  c5_escape_normal_noop_amended (initEngine doc5lines) rfl rfl rfl

-- ─────────────────────────────────────────────────────────────────
-- C9: failed motions
-- ─────────────────────────────────────────────────────────────────

/-- motion_find_char never touches the register bank. -/
theorem motion_find_char_registers (d : Doc) (s : VimState) (c : Nat)
    (ch : Char) (fw bf : Bool) :
    ((motion_find_char d s c ch fw bf).2).registers = s.registers := by
  unfold motion_find_char
  dsimp only
  split <;> (try split) <;> rfl

/-- Every registered motion handler leaves the register bank unchanged. -/
theorem motion_handler_registers (name : String) (f : MotionFunc)
    (h : get_motion_handler name = some f) (d : Doc) (s : VimState) (c : Nat) :
    ((f d s c).2).registers = s.registers := by
  unfold get_motion_handler tableGet at h
  rcases hfind : MOTION_HANDLERS.find? (fun p => p.1 = name) with _ | p
  · rw [hfind] at h
    cases h
  · rw [hfind] at h
    injection h with h
    subst h
    have hp := List.mem_of_find?_eq_some hfind
    fin_cases hp <;>
      first
        | rfl
        | (unfold motion_document_start
           dsimp only
           split <;> rfl)
        | (unfold motion_document_end
           dsimp only
           split <;> rfl)
        | (unfold motion_repeat_find
           dsimp only
           split
           · rfl
           · exact motion_find_char_registers ..)
        | (unfold motion_repeat_find_reverse
           dsimp only
           split
           · rfl
           · exact motion_find_char_registers ..)

/-- enter_mode produces the requested mode. -/
theorem enter_mode_mode (s : VimState) (m : VimMode) :
    (s.enter_mode m).mode = m := by
  unfold VimState.enter_mode VimState.reset_operator
  dsimp only
  split <;> split <;> rfl

/-- enter_mode keeps a cleared pending operator cleared. -/
theorem enter_mode_pending_none (s : VimState) (m : VimMode)
    (h : s.pending_operator = none) :
    (s.enter_mode m).pending_operator = none := by
  unfold VimState.enter_mode VimState.reset_operator
  dsimp only
  split <;> split <;> simp [h]

/-- C9: a failed motion leaves the cursor untouched (for find-char the
returned position is the unchanged cursor and the state is untouched), and
a motion failure under a pending operator cancels the operator: the mode
returns to Normal, the pending operator is cleared, and neither the
document nor any register is mutated. -/
theorem c9_failed_motion_cancels :
    (∀ (d : Doc) (s : VimState) (count : Nat) (ch : Char) (bf : Bool),
      d.find_char_forward ch count bf = none →
      motion_find_char d s count ch true bf
        = (⟨d.cursor, .exclusive, true⟩, s)) ∧
    (∀ (d : Doc) (s : VimState) (count : Nat) (ch : Char) (bf : Bool),
      d.find_char_backward ch count bf = none →
      motion_find_char d s count ch false bf
        = (⟨d.cursor, .exclusive, true⟩, s)) ∧
    (∀ (e : Engine) (name : String) (f : MotionFunc),
      get_motion_handler name = some f →
      ((f e.doc e.vim e.vim.get_effective_count).1).failed = true →
      (e.execute_operator_with_motion name).1.doc = e.doc ∧
      (e.execute_operator_with_motion name).1.vim.mode = .normal ∧
      (e.execute_operator_with_motion name).1.vim.pending_operator = none ∧
      (e.execute_operator_with_motion name).1.vim.registers = e.vim.registers ∧
      (e.execute_operator_with_motion name).2 = {}) := by
  refine ⟨?_, ?_, ?_⟩
  · intro d s count ch bf h
    unfold motion_find_char
    simp only [reduceIte, h]
  · intro d s count ch bf h
    unfold motion_find_char
    simp only [Bool.false_eq_true, reduceIte, h]
  · intro e name f h hfail
    unfold Engine.execute_operator_with_motion
    rcases hfv : f e.doc e.vim e.vim.get_effective_count with ⟨res, vim⟩
    rw [hfv] at hfail
    have hfail2 : res.failed = true := hfail
    simp only [h, hfv, hfail2, reduceIte, Engine.cancelOperator]
    refine ⟨by trivial, by exact enter_mode_mode .., ?_, ?_, by trivial⟩
    · exact enter_mode_pending_none _ _ rfl
    · rw [enter_mode_registers]
      show (vim.reset_counts).registers = e.vim.registers
      have := motion_handler_registers name f h e.doc e.vim e.vim.get_effective_count
      rw [hfv] at this
      exact this

/-- Witness: a failing find (no `z` in `abc`) and a failing repeat-find
(`d` then `;` with no recorded search) at concrete inputs. -/
theorem c9_failed_motion_cancels_witness :
    motion_find_char docAbc {} 1 'z' true false
      = (⟨docAbc.cursor, .exclusive, true⟩, {}) ∧
    (let e : Engine :=
      { doc := docAbc, vim := { mode := .opPending, pending_operator := some "d" } }
     (e.execute_operator_with_motion "motion_repeat_find").1.doc = e.doc ∧
     (e.execute_operator_with_motion "motion_repeat_find").1.vim.mode = .normal ∧
     (e.execute_operator_with_motion "motion_repeat_find").1.vim.pending_operator = none ∧
     (e.execute_operator_with_motion "motion_repeat_find").1.vim.registers
       = e.vim.registers ∧
     (e.execute_operator_with_motion "motion_repeat_find").2 = {}) :=
  ⟨c9_failed_motion_cancels.1 docAbc {} 1 'z' false (by decide),
   c9_failed_motion_cancels.2.2 _ "motion_repeat_find" motion_repeat_find rfl
     (by decide)⟩

-- ─────────────────────────────────────────────────────────────────
-- C8: the command-line sublanguage
-- ─────────────────────────────────────────────────────────────────

/-- First whitespace-separated token of a command, lowercased
(`cmd.split(None, 1)[0].lower()` on the already-stripped command). -/
def firstToken (cmd : List Char) : List Char :=
  (cmd.takeWhile (fun c => ¬ isSpaceChar c)).map Char.toLower

/-- The recognized first tokens of the ex-command sublanguage. -/
def commandTokens : List (List Char) :=
  ["q".data, "quit".data, "q!".data, "quit!".data, "w".data, "write".data,
   "wq".data, "x".data, "exit".data, "h".data, "help".data]

/-- C8: execute trims the buffer, splits on the first whitespace run, and
maps the first token — q/quit to Quit, q!/quit! to QuitForce, w/write to
Write with a confirmation message, wq/x/exit to WriteQuit, h/help to an
informational message, and any other non-empty input to an error whose
message is `Unknown command: <input>`; in particular `:wq` then Enter
yields the WriteQuit action. -/
theorem c8_command_line_mapping :
    ((initEngine docAbc).run [":", "w", "q", "enter"]).2.command_action
      = some .writeQuit ∧
    ((initEngine docAbc).run [":", "w", "q", "enter"]).1.vim.mode = .normal ∧
    (∀ b : List Char, stripChars b = [] → (command_execute b).2 = {}) ∧
    (∀ b : List Char,
      (firstToken (stripChars b) = "q".data ∨
          firstToken (stripChars b) = "quit".data →
        (command_execute b).2 = { action := .quit }) ∧
      (firstToken (stripChars b) = "q!".data ∨
          firstToken (stripChars b) = "quit!".data →
        (command_execute b).2 = { action := .quitForce }) ∧
      (firstToken (stripChars b) = "w".data ∨
          firstToken (stripChars b) = "write".data →
        (command_execute b).2
          = { action := .write, message := "Query saved to history" }) ∧
      (firstToken (stripChars b) = "wq".data ∨
          firstToken (stripChars b) = "x".data ∨
          firstToken (stripChars b) = "exit".data →
        (command_execute b).2 = { action := .writeQuit }) ∧
      (firstToken (stripChars b) = "h".data ∨
          firstToken (stripChars b) = "help".data →
        (command_execute b).2 = { message :=
          "Commands: :q (quit), :w (save), :wq (save & quit), :q! (force quit)" }) ∧
      (stripChars b ≠ [] → firstToken (stripChars b) ∉ commandTokens →
        (command_execute b).2 =
          { error := true,
            message := "Unknown command: " ++ String.mk (stripChars b) })) := by
  refine ⟨by decide, by decide, ?_, ?_⟩
  · intro b h
    unfold command_execute parse_and_execute
    simp [h]
  · intro b
    have tokNe : ∀ (t : List Char), t ≠ [] →
        firstToken (stripChars b) = t → stripChars b ≠ [] := by
      intro t ht h hc
      rw [hc] at h
      exact ht (h.symm.trans rfl)
    refine ⟨?_, ?_, ?_, ?_, ?_, ?_⟩
    · intro h
      have hne : stripChars b ≠ [] := by
        rcases h with h | h <;> exact tokNe _ (by decide) h
      unfold command_execute parse_and_execute firstToken at *
      rcases h with h | h <;> rw [h] <;> simp [hne]
    · intro h
      have hne : stripChars b ≠ [] := by
        rcases h with h | h <;> exact tokNe _ (by decide) h
      unfold command_execute parse_and_execute firstToken at *
      rcases h with h | h <;> rw [h] <;> simp [hne]
    · intro h
      have hne : stripChars b ≠ [] := by
        rcases h with h | h <;> exact tokNe _ (by decide) h
      unfold command_execute parse_and_execute firstToken at *
      rcases h with h | h <;> rw [h] <;> simp [hne]
    · intro h
      have hne : stripChars b ≠ [] := by
        rcases h with h | h | h <;> exact tokNe _ (by decide) h
      unfold command_execute parse_and_execute firstToken at *
      rcases h with h | h | h <;> rw [h] <;> simp [hne]
    · intro h
      have hne : stripChars b ≠ [] := by
        rcases h with h | h <;> exact tokNe _ (by decide) h
      unfold command_execute parse_and_execute firstToken at *
      rcases h with h | h <;> rw [h] <;> simp [hne]
    · intro hne hnotin
      simp only [commandTokens, List.mem_cons, List.not_mem_nil, or_false] at hnotin
      push_neg at hnotin
      unfold command_execute parse_and_execute firstToken at *
      simp only [hne, reduceIte, hnotin.1, hnotin.2.1, hnotin.2.2.1,
        hnotin.2.2.2.1, hnotin.2.2.2.2.1, hnotin.2.2.2.2.2.1,
        hnotin.2.2.2.2.2.2.1, hnotin.2.2.2.2.2.2.2.1,
        hnotin.2.2.2.2.2.2.2.2.1, hnotin.2.2.2.2.2.2.2.2.2.1,
        hnotin.2.2.2.2.2.2.2.2.2.2, or_self, if_false]

/-- Witness: the C8 mapping at concrete buffers. -/
theorem c8_command_line_mapping_witness :
    (command_execute " wq ".data).2 = { action := .writeQuit } ∧
    (command_execute "bogus x".data).2 =
      { error := true, message := "Unknown command: " ++ String.mk (stripChars "bogus x".data) } :=
  ⟨(c8_command_line_mapping.2.2.2 " wq ".data).2.2.2.1 (by decide),
   (c8_command_line_mapping.2.2.2 "bogus x".data).2.2.2.2.2 (by decide) (by decide)⟩

-- ─────────────────────────────────────────────────────────────────
-- C7: bracket text objects
-- ─────────────────────────────────────────────────────────────────

/-- C7: bracket text objects find the enclosing pair by a depth-tracking
backward scan for the open bracket and forward scan for the close; the
inner variant is the outer range with both delimiters excluded, a missing
bracket on either side yields failure, and on `foo(bar, baz)` with the
cursor at column 5 the sequence `d`,`i`,`(` leaves the text `foo()`. -/
theorem c7_bracket_text_object :
    ((initEngine docParen).run ["d", "i", "("]).1.doc.text = "foo()".data ∧
    ((initEngine docParen).run ["d", "i", "("]).1.vim.mode = .normal ∧
    (∀ (d : Doc) (o c : Char),
      d.get_bracket_boundaries o c true
        = (d.get_bracket_boundaries o c false).map
            (fun pq => ((pq.1.1, pq.1.2 + 1), (pq.2.1, pq.2.2 - 1)))) ∧
    (∀ (d : Doc) (o c : Char) (inner : Bool),
      brOpenAux d.current_line o c (d.cursor_col + 1) 0 = none →
      d.get_bracket_boundaries o c inner = none) ∧
    (∀ (d : Doc) (o c : Char) (inner : Bool) (s : Nat),
      brOpenAux d.current_line o c (d.cursor_col + 1) 0 = some s →
      brCloseAux o c (d.current_line.drop (s + 1)) (s + 1) 0 = none →
      d.get_bracket_boundaries o c inner = none) ∧
    (∀ (d : Doc) (s : VimState) (cnt : Nat) (o c : Char) (inner : Bool),
      d.get_bracket_boundaries o c inner = none →
      (bracket_textobj o c inner d s cnt).failed = true) := by
  refine ⟨by decide, by decide, ?_, ?_, ?_, ?_⟩
  · intro d o c
    unfold Doc.get_bracket_boundaries
    dsimp only
    rcases h1 : brOpenAux d.current_line o c (d.cursor_col + 1) 0 with _ | s
    · simp
    · rcases h2 : brCloseAux o c (d.current_line.drop (s + 1)) (s + 1) 0 with _ | e
      · simp [h2]
      · simp [h2]
  · intro d o c inner h
    unfold Doc.get_bracket_boundaries
    dsimp only
    simp [h]
  · intro d o c inner s h1 h2
    unfold Doc.get_bracket_boundaries
    dsimp only
    simp [h1, h2]
  · intro d s cnt o c inner h
    unfold bracket_textobj
    simp [h]

/-- Witness: inner/outer relation and failure at concrete lines. -/
theorem c7_bracket_text_object_witness :
    docAbc.get_bracket_boundaries '(' ')' true = none ∧
    (bracket_textobj '(' ')' true docAbc {} 1).failed = true :=
  ⟨c7_bracket_text_object.2.2.2.1 docAbc '(' ')' true (by decide),
   c7_bracket_text_object.2.2.2.2.2 docAbc {} 1 '(' ')' true
     (c7_bracket_text_object.2.2.2.1 docAbc '(' ')' true (by decide))⟩

-- ─────────────────────────────────────────────────────────────────
-- C6: yank / paste-after round trip
-- ─────────────────────────────────────────────────────────────────

/-- consume_count never touches registers or the register selection. -/
theorem consume_count_registers (s : VimState) :
    (s.consume_count).1.registers = s.registers ∧
    (s.consume_count).1.current_register = s.current_register := by
  unfold VimState.consume_count
  split <;> exact ⟨rfl, rfl⟩

/-- The document produced by action_paste_after: nothing for an empty
register, a new line below for a linewise register, an inline insertion
after the cursor otherwise. -/
theorem paste_after_doc (e : Engine) :
    (e.execute_action "action_paste_after").1.doc
      = (let reg := e.vim.get_register_content none
         if reg.content ≠ [] then
           if reg.linewise then
             (e.doc.move_cursor (e.doc.cursor_row, e.doc.current_line_length)).insert_text
               ('\n' :: reg.content)
           else
             let col := if e.doc.cursor.2 < e.doc.current_line_length then
                 e.doc.cursor.2 + 1
               else e.doc.cursor.2
             (e.doc.move_cursor (e.doc.cursor.1, col)).insert_text reg.content
         else e.doc) := by
  unfold Engine.execute_action
  rcases hc : e.vim.consume_count with ⟨vim, count⟩
  have h1 : vim.registers = e.vim.registers := by
    have := (consume_count_registers e.vim).1
    rw [hc] at this
    exact this
  have h2 : vim.current_register = e.vim.current_register := by
    have := (consume_count_registers e.vim).2
    rw [hc] at this
    exact this
  simp only [hc, reduceIte, String.reduceEq]
  unfold VimState.get_register_content getReg
  rw [h1, h2]
  split <;> (try split) <;> rfl

/-- A charwise yank stores exactly `yankedText` (flagged charwise). -/
theorem yank_result_state (d : Doc) (s : VimState) (a b : Nat × Nat)
    (t : TextObjectType) (ht : ¬ t = .linewise) :
    (operator_yank d s a b t).2.1
      = s.yank_to_register (yankedText d a b t) false := by
  unfold operator_yank yankedText
  rw [if_neg ht, if_neg ht]

/-- A linewise yank stores exactly `yankedText` flagged linewise. -/
theorem yank_result_state_linewise (d : Doc) (s : VimState) (a b : Nat × Nat) :
    (operator_yank d s a b .linewise).2.1
      = s.yank_to_register (yankedText d a b .linewise) true := by
  unfold operator_yank yankedText
  rfl

/-- C6: yank never mutates the buffer, and a yank immediately followed by
paste-after reproduces the yanked text exactly at the paste point: a
charwise yank is spliced inline after the cursor (at the cursor itself when
the cursor cannot move right, i.e. on an empty line), and a linewise yank
is inserted as whole lines on a new line below the cursor's line (a newline
followed by the register content at the end-of-line offset). -/
theorem c6_yank_paste_round_trip :
    (∀ (d : Doc) (s : VimState) (a b : Nat × Nat) (t : TextObjectType),
      (operator_yank d s a b t).1 = d) ∧
    (∀ (e : Engine) (a b : Nat × Nat) (t : TextObjectType),
      ¬ t = .linewise →
      yankedText e.doc a b t ≠ [] →
      ({ e with vim := (operator_yank e.doc e.vim a b t).2.1 }.execute_action
          "action_paste_after").1.doc.text
        = e.doc.text.take (e.doc.offset (e.doc.cursor.1,
            if e.doc.cursor.2 < e.doc.current_line_length then e.doc.cursor.2 + 1
            else e.doc.cursor.2))
          ++ yankedText e.doc a b t
          ++ e.doc.text.drop (e.doc.offset (e.doc.cursor.1,
            if e.doc.cursor.2 < e.doc.current_line_length then e.doc.cursor.2 + 1
            else e.doc.cursor.2))) ∧
    (∀ (e : Engine) (a b : Nat × Nat),
      yankedText e.doc a b .linewise ≠ [] →
      ({ e with vim := (operator_yank e.doc e.vim a b .linewise).2.1 }.execute_action
          "action_paste_after").1.doc.text
        = e.doc.text.take (e.doc.offset (e.doc.cursor.1, e.doc.current_line_length))
          ++ '\n' :: yankedText e.doc a b .linewise
          ++ e.doc.text.drop (e.doc.offset (e.doc.cursor.1, e.doc.current_line_length))) := by
  refine ⟨?_, ?_, ?_⟩
  · intro d s a b t
    by_cases ht : t = .linewise <;> simp [operator_yank, ht]
  · intro e a b t ht hne
    rw [paste_after_doc]
    rw [yank_result_state _ _ _ _ _ ht]
    simp only [VimState.get_register_content, Option.getD]
    rw [show (e.vim.yank_to_register (yankedText e.doc a b t) false).current_register
        = "\"" from rfl]
    rw [yank_unnamed]
    simp only [ne_eq, hne, not_false_iff, reduceIte, if_true, Bool.false_eq_true,
      if_false]
    rfl
  · intro e a b hne
    rw [paste_after_doc]
    rw [yank_result_state_linewise]
    simp only [VimState.get_register_content, Option.getD]
    rw [show (e.vim.yank_to_register (yankedText e.doc a b .linewise) true).current_register
        = "\"" from rfl]
    rw [yank_unnamed]
    simp only [ne_eq, hne, not_false_iff, reduceIte, if_true]
    rfl

/-- Witness: a charwise round trip on `hello world` and a linewise round
trip on the five-line document. -/
theorem c6_yank_paste_round_trip_witness :
    (({ (initEngine docHello) with
        vim := (operator_yank docHello ({} : VimState) (0, 0) (0, 6) .exclusive).2.1 }.execute_action
        "action_paste_after").1.doc.text
      = docHello.text.take (docHello.offset (0, 1))
        ++ yankedText docHello (0, 0) (0, 6) .exclusive
        ++ docHello.text.drop (docHello.offset (0, 1))) ∧
    (({ (initEngine doc5lines) with
        vim := (operator_yank doc5lines ({} : VimState) (0, 0) (0, 0) .linewise).2.1 }.execute_action
        "action_paste_after").1.doc.text
      = doc5lines.text.take (doc5lines.offset (0, 2))
        ++ '\n' :: yankedText doc5lines (0, 0) (0, 0) .linewise
        ++ doc5lines.text.drop (doc5lines.offset (0, 2))) :=
  ⟨c6_yank_paste_round_trip.2.1 (initEngine docHello) (0, 0) (0, 6) .exclusive
      (by decide) (by decide),
   c6_yank_paste_round_trip.2.2 (initEngine doc5lines) (0, 0) (0, 0) (by decide)⟩

-- ─────────────────────────────────────────────────────────────────
-- C10: the visual-anchor invariant over reachable states
-- ─────────────────────────────────────────────────────────────────

/-- The anchor invariant: a recorded visual anchor implies a visual mode. -/
def anchorOK (s : VimState) : Prop :=
  s.visual_anchor ≠ none → s.mode.isVisual = true

/-- States agreeing on mode and anchor share the invariant. -/
theorem anchorOK_congr {s s' : VimState} (hm : s'.mode = s.mode)
    (ha : s'.visual_anchor = s.visual_anchor) (h : anchorOK s) : anchorOK s' := by
  unfold anchorOK at *
  rw [hm, ha]
  exact h

/-- enter_mode clears the anchor exactly when leaving the visual modes. -/
theorem enter_mode_anchor (s : VimState) (m : VimMode) :
    (s.enter_mode m).visual_anchor
      = if s.mode.isVisual = true ∧ ¬ m.isVisual = true then none
        else s.visual_anchor := by
  unfold VimState.enter_mode VimState.reset_operator
  dsimp only
  split <;> split <;> rfl

theorem anchorOK_enter_mode {s : VimState} (m : VimMode) (h : anchorOK s) :
    anchorOK (s.enter_mode m) := by
  intro ha
  rw [enter_mode_mode]
  rw [enter_mode_anchor] at ha
  by_cases hc : s.mode.isVisual = true ∧ ¬ m.isVisual = true
  · rw [if_pos hc] at ha
    exact absurd rfl ha
  · rw [if_neg hc] at ha
    by_cases hm : m.isVisual = true
    · exact hm
    · exact absurd ⟨h ha, hm⟩ hc

theorem anchorOK_start_visual {s : VimState} (a : Nat × Nat) {m : VimMode}
    (hm : m.isVisual = true) : anchorOK (s.start_visual a m) := by
  unfold VimState.start_visual
  intro _
  rw [enter_mode_mode]
  exact hm

theorem consume_count_modeAnchor (s : VimState) :
    (s.consume_count).1.mode = s.mode ∧
    (s.consume_count).1.visual_anchor = s.visual_anchor := by
  unfold VimState.consume_count
  split <;> exact ⟨rfl, rfl⟩

theorem accumulate_digit_modeAnchor (s : VimState) (k : String) :
    (s.accumulate_digit k).1.mode = s.mode ∧
    (s.accumulate_digit k).1.visual_anchor = s.visual_anchor := by
  unfold VimState.accumulate_digit
  split <;> (try split) <;> exact ⟨rfl, rfl⟩

theorem yank_to_register_modeAnchor (s : VimState) (t : List Char) (lw : Bool) :
    (s.yank_to_register t lw).mode = s.mode ∧
    (s.yank_to_register t lw).visual_anchor = s.visual_anchor :=
  ⟨rfl, rfl⟩

theorem motion_find_char_modeAnchor (d : Doc) (s : VimState) (c : Nat)
    (ch : Char) (fw bf : Bool) :
    ((motion_find_char d s c ch fw bf).2).mode = s.mode ∧
    ((motion_find_char d s c ch fw bf).2).visual_anchor = s.visual_anchor := by
  unfold motion_find_char
  dsimp only
  split <;> (try split) <;> exact ⟨rfl, rfl⟩

/-- Every registered motion handler preserves mode and anchor. -/
theorem motion_handler_modeAnchor (name : String) (f : MotionFunc)
    (h : get_motion_handler name = some f) (d : Doc) (s : VimState) (c : Nat) :
    ((f d s c).2).mode = s.mode ∧
    ((f d s c).2).visual_anchor = s.visual_anchor := by
  unfold get_motion_handler tableGet at h
  rcases hfind : MOTION_HANDLERS.find? (fun p => p.1 = name) with _ | p
  · rw [hfind] at h
    cases h
  · rw [hfind] at h
    injection h with h
    subst h
    have hp := List.mem_of_find?_eq_some hfind
    fin_cases hp <;>
      first
        | exact ⟨rfl, rfl⟩
        | (unfold motion_document_start
           dsimp only
           split <;> exact ⟨rfl, rfl⟩)
        | (unfold motion_document_end
           dsimp only
           split <;> exact ⟨rfl, rfl⟩)
        | (unfold motion_repeat_find
           dsimp only
           split
           · exact ⟨rfl, rfl⟩
           · exact motion_find_char_modeAnchor ..)
        | (unfold motion_repeat_find_reverse
           dsimp only
           split
           · exact ⟨rfl, rfl⟩
           · exact motion_find_char_modeAnchor ..)

theorem op_delete_modeAnchor (d : Doc) (s : VimState) (a b : Nat × Nat)
    (t : TextObjectType) :
    ((operator_delete d s a b t).2.1).mode = s.mode ∧
    ((operator_delete d s a b t).2.1).visual_anchor = s.visual_anchor := by
  unfold operator_delete
  dsimp only
  split <;> exact ⟨rfl, rfl⟩

/-- Every registered operator handler preserves mode and anchor. -/
theorem operator_handler_modeAnchor (name : String) (op : OperatorFunc)
    (h : get_operator_handler name = some op) (d : Doc) (s : VimState)
    (a b : Nat × Nat) (t : TextObjectType) :
    ((op d s a b t).2.1).mode = s.mode ∧
    ((op d s a b t).2.1).visual_anchor = s.visual_anchor := by
  unfold get_operator_handler tableGet at h
  rcases hfind : OPERATOR_HANDLERS.find? (fun p => p.1 = name) with _ | p
  · rw [hfind] at h
    cases h
  · rw [hfind] at h
    injection h with h
    subst h
    have hp := List.mem_of_find?_eq_some hfind
    fin_cases hp <;>
      first
        | exact ⟨rfl, rfl⟩
        | exact op_delete_modeAnchor ..
        | (unfold operator_yank
           dsimp only
           split <;> exact ⟨rfl, rfl⟩)

theorem anchorOK_enter_insert_mode (e : Engine) (h : anchorOK e.vim) :
    anchorOK (e.enter_insert_mode).vim := by
  unfold Engine.enter_insert_mode
  exact anchorOK_congr rfl rfl (anchorOK_enter_mode _ h)

theorem anchorOK_exit_insert_mode (e : Engine) (h : anchorOK e.vim) :
    anchorOK (e.exit_insert_mode).vim := by
  unfold Engine.exit_insert_mode
  dsimp only
  split <;> exact anchorOK_enter_mode _ h

theorem anchorOK_enter_visual_mode (e : Engine) (lm : Bool) (_h : anchorOK e.vim) :
    anchorOK ((e.enter_visual_mode lm).vim) := by
  unfold Engine.enter_visual_mode
  dsimp only
  split
  · exact anchorOK_start_visual _ rfl
  · exact anchorOK_start_visual _ rfl

theorem anchorOK_exit_visual_mode (e : Engine) (h : anchorOK e.vim) :
    anchorOK (e.exit_visual_mode).vim := by
  unfold Engine.exit_visual_mode
  exact anchorOK_enter_mode _ h

theorem anchorOK_clamp_cursor (e : Engine) (h : anchorOK e.vim) :
    anchorOK (e.clamp_cursor).vim := h

theorem anchorOK_replace_char (e : Engine) (ch : Char) (h : anchorOK e.vim) :
    anchorOK ((e.replace_char ch).1).vim := by
  unfold Engine.replace_char
  dsimp only
  split <;> exact h

theorem anchorOK_cancelOperator (e : Engine) (h : anchorOK e.vim) :
    anchorOK (e.cancelOperator).vim :=
  anchorOK_enter_mode _ (anchorOK_congr rfl rfl h)

theorem anchorOK_execute_motion (e : Engine) (name : String)
    (h : anchorOK e.vim) : anchorOK ((e.execute_motion name).1).vim := by
  unfold Engine.execute_motion
  cases hm : get_motion_handler name with
  | none => exact h
  | some f =>
    dsimp only
    exact anchorOK_congr
      ((motion_handler_modeAnchor name f hm e.doc _ _).1.trans
        (consume_count_modeAnchor e.vim).1)
      ((motion_handler_modeAnchor name f hm e.doc _ _).2.trans
        (consume_count_modeAnchor e.vim).2) h

theorem anchorOK_execute_line_operator (e : Engine) (name : String)
    (h : anchorOK e.vim) : anchorOK ((e.execute_line_operator name).1).vim := by
  unfold Engine.execute_line_operator
  cases hm : get_operator_handler name with
  | none => exact anchorOK_cancelOperator e h
  | some op =>
    dsimp only
    have hok : anchorOK ((op e.doc e.vim (e.doc.cursor_row, 0)
        (min (e.doc.cursor_row + e.vim.get_effective_count - 1)
          (e.doc.line_count - 1), 0) .linewise).2.1) :=
      anchorOK_congr (operator_handler_modeAnchor name op hm ..).1
        (operator_handler_modeAnchor name op hm ..).2 h
    split
    · exact anchorOK_enter_insert_mode _ (anchorOK_cancelOperator _ hok)
    · exact anchorOK_cancelOperator _ hok

theorem anchorOK_start_operator (e : Engine) (name key : String)
    (h : anchorOK e.vim) : anchorOK ((e.start_operator name key).1).vim := by
  unfold Engine.start_operator
  dsimp only
  split
  · exact anchorOK_execute_line_operator e name h
  · refine anchorOK_enter_mode _ (anchorOK_congr ?_ ?_ h)
    · exact (consume_count_modeAnchor _).1.trans rfl
    · exact (consume_count_modeAnchor _).2.trans rfl

theorem anchorOK_execute_operator_with_motion (e : Engine) (name : String)
    (h : anchorOK e.vim) :
    anchorOK ((e.execute_operator_with_motion name).1).vim := by
  unfold Engine.execute_operator_with_motion
  cases hm : get_motion_handler name with
  | none => exact anchorOK_cancelOperator e h
  | some f =>
    dsimp only
    have hv1 : anchorOK ((f e.doc e.vim e.vim.get_effective_count).2) :=
      anchorOK_congr (motion_handler_modeAnchor name f hm ..).1
        (motion_handler_modeAnchor name f hm ..).2 h
    split
    · exact anchorOK_cancelOperator _ hv1
    · split
      · exact anchorOK_cancelOperator _ hv1
      · split
        · exact anchorOK_cancelOperator _ hv1
        · split
          · exact anchorOK_cancelOperator _ hv1
          · rename_i op hop
            split
            · exact anchorOK_enter_insert_mode _ (anchorOK_cancelOperator _
                (anchorOK_congr (operator_handler_modeAnchor _ op hop ..).1
                  (operator_handler_modeAnchor _ op hop ..).2 hv1))
            · exact anchorOK_cancelOperator _
                (anchorOK_congr (operator_handler_modeAnchor _ op hop ..).1
                  (operator_handler_modeAnchor _ op hop ..).2 hv1)

theorem anchorOK_execute_operator_with_text_object (e : Engine) (name : String)
    (h : anchorOK e.vim) :
    anchorOK ((e.execute_operator_with_text_object name).1).vim := by
  unfold Engine.execute_operator_with_text_object
  cases hm : get_text_object_handler name with
  | none => exact anchorOK_cancelOperator e h
  | some f =>
    dsimp only
    split
    · exact anchorOK_cancelOperator _ h
    · split
      · exact anchorOK_cancelOperator _ h
      · split
        · exact anchorOK_cancelOperator _ h
        · split
          · exact anchorOK_cancelOperator _ h
          · rename_i op hop
            split
            · exact anchorOK_enter_insert_mode _ (anchorOK_cancelOperator _
                (anchorOK_congr (operator_handler_modeAnchor _ op hop ..).1
                  (operator_handler_modeAnchor _ op hop ..).2 h))
            · exact anchorOK_cancelOperator _
                (anchorOK_congr (operator_handler_modeAnchor _ op hop ..).1
                  (operator_handler_modeAnchor _ op hop ..).2 h)

theorem deleteCharLoop_modeAnchor :
    ∀ (n : Nat) (d : Doc) (s : VimState) (row col : Nat),
      ((deleteCharLoop d s row col n).2).mode = s.mode ∧
      ((deleteCharLoop d s row col n).2).visual_anchor = s.visual_anchor
  | 0, _, _, _, _ => ⟨rfl, rfl⟩
  | n + 1, d, s, row, col => by
    unfold deleteCharLoop
    dsimp only
    split
    · exact ⟨(deleteCharLoop_modeAnchor n _ _ row col).1.trans rfl,
        (deleteCharLoop_modeAnchor n _ _ row col).2.trans rfl⟩
    · exact deleteCharLoop_modeAnchor n d s row col

theorem deleteCharBeforeLoop_modeAnchor :
    ∀ (n : Nat) (d : Doc) (s : VimState) (row col : Nat),
      ((deleteCharBeforeLoop d s row col n).2).mode = s.mode ∧
      ((deleteCharBeforeLoop d s row col n).2).visual_anchor = s.visual_anchor
  | 0, _, _, _, _ => ⟨rfl, rfl⟩
  | n + 1, d, s, row, col => by
    unfold deleteCharBeforeLoop
    dsimp only
    split
    · exact ⟨(deleteCharBeforeLoop_modeAnchor n _ _ row (col - 1)).1.trans rfl,
        (deleteCharBeforeLoop_modeAnchor n _ _ row (col - 1)).2.trans rfl⟩
    · exact deleteCharBeforeLoop_modeAnchor n d s row col

theorem anchorOK_execute_action (e : Engine) (name : String)
    (h : anchorOK e.vim) : anchorOK ((e.execute_action name).1).vim := by
  unfold Engine.execute_action
  dsimp only
  have hv : anchorOK (e.vim.consume_count).1 :=
    anchorOK_congr (consume_count_modeAnchor e.vim).1
      (consume_count_modeAnchor e.vim).2 h
  by_cases h0 : name = "action_insert"
  · rw [if_pos h0]
    exact anchorOK_enter_insert_mode _ hv
  rw [if_neg h0]
  by_cases h1 : name = "action_insert_line_start"
  · rw [if_pos h1]
    exact anchorOK_enter_insert_mode _ hv
  rw [if_neg h1]
  by_cases h2 : name = "action_append"
  · rw [if_pos h2]
    exact anchorOK_enter_insert_mode _ hv
  rw [if_neg h2]
  by_cases h3 : name = "action_append_line_end"
  · rw [if_pos h3]
    exact anchorOK_enter_insert_mode _ hv
  rw [if_neg h3]
  by_cases h4 : name = "action_open_below"
  · rw [if_pos h4]
    exact anchorOK_enter_insert_mode _ hv
  rw [if_neg h4]
  by_cases h5 : name = "action_open_above"
  · rw [if_pos h5]
    exact anchorOK_enter_insert_mode _ hv
  rw [if_neg h5]
  by_cases h6 : name = "action_substitute"
  · rw [if_pos h6]
    exact anchorOK_enter_insert_mode _ (by split <;> exact hv)
  rw [if_neg h6]
  by_cases h7 : name = "action_substitute_line"
  · rw [if_pos h7]
    exact anchorOK_enter_insert_mode _ hv
  rw [if_neg h7]
  by_cases h8 : name = "action_change_to_eol"
  · rw [if_pos h8]
    exact anchorOK_enter_insert_mode _ (by split <;> first
            | exact anchorOK_congr (yank_to_register_modeAnchor ..).1 (yank_to_register_modeAnchor ..).2 hv
            | exact hv)
  rw [if_neg h8]
  by_cases h9 : name = "action_delete_to_eol"
  · rw [if_pos h9]
    by_cases hc : e.doc.2.2 < e.doc.current_line_length
    · rw [if_pos hc]
      exact anchorOK_congr (yank_to_register_modeAnchor ..).1 (yank_to_register_modeAnchor ..).2 hv
    · rw [if_neg hc]
      exact hv
  rw [if_neg h9]
  by_cases h10 : name = "action_delete_char"
  · rw [if_pos h10]
    exact anchorOK_congr (deleteCharLoop_modeAnchor ..).1 (deleteCharLoop_modeAnchor ..).2 hv
  rw [if_neg h10]
  by_cases h11 : name = "action_delete_char_before"
  · rw [if_pos h11]
    exact anchorOK_congr (deleteCharBeforeLoop_modeAnchor ..).1 (deleteCharBeforeLoop_modeAnchor ..).2 hv
  rw [if_neg h11]
  by_cases h12 : name = "action_paste_after"
  · rw [if_pos h12]
    split <;> (try split) <;> exact hv
  rw [if_neg h12]
  by_cases h13 : name = "action_paste_before"
  · rw [if_pos h13]
    split <;> (try split) <;> exact hv
  rw [if_neg h13]
  by_cases h14 : name = "action_undo"
  · rw [if_pos h14]
    exact anchorOK_clamp_cursor _ (anchorOK_clamp_cursor _ hv)
  rw [if_neg h14]
  by_cases h15 : name = "action_redo"
  · rw [if_pos h15]
    exact anchorOK_clamp_cursor _ (anchorOK_clamp_cursor _ hv)
  rw [if_neg h15]
  by_cases h16 : name = "action_join_lines"
  · rw [if_pos h16]
    split <;> exact hv
  rw [if_neg h16]
  by_cases h17 : name = "action_swap_case_char"
  · rw [if_pos h17]
    split <;> exact hv
  rw [if_neg h17]
  by_cases h18 : name = "action_escape"
  · rw [if_pos h18]
    by_cases hc : (e.vim.consume_count).1.mode ≠ .normal
    · rw [if_pos hc]
      exact anchorOK_enter_mode _ hv
    · rw [if_neg hc]
      exact hv
  rw [if_neg h18]
  exact hv

theorem anchorOK_enter_command_mode (e : Engine) (h : anchorOK e.vim) :
    anchorOK (e.enter_command_mode).vim := by
  unfold Engine.enter_command_mode
  exact anchorOK_enter_mode _ h

theorem anchorOK_execute_mode_switch (e : Engine) (name : String)
    (h : anchorOK e.vim) : anchorOK ((e.execute_mode_switch name).1).vim := by
  unfold Engine.execute_mode_switch
  split
  · exact anchorOK_enter_visual_mode e false h
  · split
    · exact anchorOK_enter_visual_mode e true h
    · split
      · exact anchorOK_enter_command_mode e h
      · exact h

theorem anchorOK_handle_pending_char (e : Engine) (key : String)
    (h : anchorOK e.vim) : anchorOK ((e.handle_pending_char key).1).vim := by
  unfold Engine.handle_pending_char
  dsimp only
  split
  · exact h
  · have hv : anchorOK (e.vim.consume_count).1 :=
      anchorOK_congr (consume_count_modeAnchor e.vim).1
        (consume_count_modeAnchor e.vim).2 h
    split
    · exact anchorOK_congr (motion_find_char_modeAnchor ..).1
        (motion_find_char_modeAnchor ..).2 hv
    · split
      · exact anchorOK_replace_char _ _ hv
      · exact hv

theorem anchorOK_handle_key_buffer (e : Engine) (key : String)
    (h : anchorOK e.vim) : anchorOK ((e.handle_key_buffer key).1).vim := by
  unfold Engine.handle_key_buffer
  dsimp only
  split
  · exact anchorOK_execute_motion _ _ h
  · split
    · exact anchorOK_start_operator _ _ _ h
    · exact h

theorem anchorOK_handle_normal_mode (e : Engine) (key : String)
    (h : anchorOK e.vim) : anchorOK ((e.handle_normal_mode key).1).vim := by
  unfold Engine.handle_normal_mode
  split
  · exact anchorOK_handle_pending_char _ _ h
  · split
    · exact anchorOK_handle_key_buffer _ _ h
    · dsimp only
      split
      · exact anchorOK_congr (accumulate_digit_modeAnchor ..).1
          (accumulate_digit_modeAnchor ..).2 h
      · split
        · split
          · exact h
          · exact h
        · split
          · exact anchorOK_execute_motion _ _ h
          · exact anchorOK_start_operator _ _ _ h
          · exact anchorOK_execute_action _ _ h
          · exact anchorOK_execute_mode_switch _ _ h
          · exact h
          · exact h

theorem anchorOK_handle_operator_pending (e : Engine) (key : String)
    (h : anchorOK e.vim) :
    anchorOK ((e.handle_operator_pending key).1).vim := by
  unfold Engine.handle_operator_pending
  split
  · exact anchorOK_cancelOperator _ h
  · dsimp only
    split
    · exact anchorOK_congr (accumulate_digit_modeAnchor ..).1
        (accumulate_digit_modeAnchor ..).2 h
    · split
      · exact h
      · split
        · split
          · exact anchorOK_execute_operator_with_text_object _ _ h
          · exact anchorOK_cancelOperator _ h
        · split
          · exact h
          · split
            · split
              · exact anchorOK_execute_operator_with_motion _ _ h
              · exact anchorOK_cancelOperator _ h
            · split
              · exact anchorOK_execute_operator_with_motion _ _ h
              · split
                · exact h
                · exact anchorOK_cancelOperator _ h

theorem anchorOK_execute_visual_motion (e : Engine) (name : String)
    (h : anchorOK e.vim) : anchorOK ((e.execute_visual_motion name).1).vim := by
  unfold Engine.execute_visual_motion
  split
  · exact h
  · rename_i f hf
    dsimp only
    have hv : anchorOK ((f e.doc (e.vim.consume_count).1
        (e.vim.consume_count).2).2) :=
      anchorOK_congr
        ((motion_handler_modeAnchor name f hf ..).1.trans
          (consume_count_modeAnchor e.vim).1)
        ((motion_handler_modeAnchor name f hf ..).2.trans
          (consume_count_modeAnchor e.vim).2) h
    split
    · exact hv
    · split
      · split
        · exact hv
        · exact hv
      · exact hv

theorem anchorOK_execute_visual_operator (e : Engine) (name : String)
    (lw : Bool) (h : anchorOK e.vim) :
    anchorOK ((e.execute_visual_operator name lw).1).vim := by
  unfold Engine.execute_visual_operator
  split
  · exact anchorOK_exit_visual_mode _ h
  · rename_i op hop
    split
    · exact anchorOK_exit_visual_mode _ h
    · dsimp only
      split
      all_goals split
      all_goals first
        | (refine anchorOK_enter_insert_mode _ (anchorOK_exit_visual_mode _ ?_)
           exact anchorOK_congr (operator_handler_modeAnchor name op hop ..).1
             (operator_handler_modeAnchor name op hop ..).2 h)
        | (refine anchorOK_exit_visual_mode _ ?_
           exact anchorOK_congr (operator_handler_modeAnchor name op hop ..).1
             (operator_handler_modeAnchor name op hop ..).2 h)

theorem anchorOK_execute_visual_action (e : Engine) (name : String)
    (lw : Bool) (h : anchorOK e.vim) :
    anchorOK ((e.execute_visual_action name lw).1).vim := by
  unfold Engine.execute_visual_action
  split
  · exact anchorOK_exit_visual_mode _ h
  · dsimp only
    exact anchorOK_enter_insert_mode _ (anchorOK_exit_visual_mode _ h)

theorem anchorOK_handle_visual_key_buffer (e : Engine) (key : String)
    (h : anchorOK e.vim) :
    anchorOK ((e.handle_visual_key_buffer key).1).vim := by
  unfold Engine.handle_visual_key_buffer
  dsimp only
  split
  · exact anchorOK_execute_visual_motion _ _ h
  · exact h

theorem anchorOK_handle_visual_mode (e : Engine) (key : String)
    (h : anchorOK e.vim) : anchorOK ((e.handle_visual_mode key).1).vim := by
  unfold Engine.handle_visual_mode
  split
  · exact anchorOK_handle_visual_key_buffer _ _ h
  · dsimp only
    split
    · exact anchorOK_congr (accumulate_digit_modeAnchor ..).1
        (accumulate_digit_modeAnchor ..).2 h
    · split
      · exact anchorOK_exit_visual_mode _ h
      · split
        · exact anchorOK_exit_visual_mode _ h
        · split
          · exact anchorOK_enter_mode _ h
          · split
            · exact anchorOK_execute_visual_action _ _ _ h
            · split
              · exact anchorOK_execute_visual_operator _ _ _ h
              · split
                · exact anchorOK_execute_visual_operator _ _ _ h
                · split
                  · exact anchorOK_execute_visual_operator _ _ _ h
                  · split
                    · exact h
                    · split
                      · exact anchorOK_execute_visual_motion _ _ h
                      · exact h

theorem anchorOK_handle_visual_line_mode (e : Engine) (key : String)
    (h : anchorOK e.vim) :
    anchorOK ((e.handle_visual_line_mode key).1).vim := by
  unfold Engine.handle_visual_line_mode
  split
  · exact anchorOK_handle_visual_key_buffer _ _ h
  · dsimp only
    split
    · exact anchorOK_congr (accumulate_digit_modeAnchor ..).1
        (accumulate_digit_modeAnchor ..).2 h
    · split
      · exact anchorOK_exit_visual_mode _ h
      · split
        · exact anchorOK_exit_visual_mode _ h
        · split
          · exact anchorOK_enter_mode _ h
          · split
            · exact anchorOK_execute_visual_action _ _ _ h
            · split
              · exact anchorOK_execute_visual_operator _ _ _ h
              · split
                · exact anchorOK_execute_visual_operator _ _ _ h
                · split
                  · exact anchorOK_execute_visual_operator _ _ _ h
                  · split
                    · exact h
                    · split
                      · exact anchorOK_execute_visual_motion _ _ h
                      · exact h

theorem anchorOK_handle_insert_mode (e : Engine) (key : String)
    (h : anchorOK e.vim) : anchorOK ((e.handle_insert_mode key).1).vim := by
  unfold Engine.handle_insert_mode
  split
  · exact anchorOK_exit_insert_mode _ h
  · exact h

theorem anchorOK_handle_command_mode (e : Engine) (key : String)
    (h : anchorOK e.vim) : anchorOK ((e.handle_command_mode key).1).vim := by
  unfold Engine.handle_command_mode
  split
  · exact anchorOK_enter_mode _ h
  · split
    · exact anchorOK_enter_mode _ h
    · split
      · split
        · exact anchorOK_enter_mode _ h
        · exact h
      · split
        · exact h
        · exact h

theorem anchorOK_handle_key (e : Engine) (key : String)
    (h : anchorOK e.vim) : anchorOK ((e.handle_key key).1).vim := by
  unfold Engine.handle_key
  split
  · exact anchorOK_handle_insert_mode _ _ h
  · exact anchorOK_handle_normal_mode _ _ h
  · exact anchorOK_handle_visual_mode _ _ h
  · exact anchorOK_handle_visual_line_mode _ _ h
  · exact anchorOK_handle_operator_pending _ _ h
  · exact anchorOK_handle_command_mode _ _ h
  · exact h

theorem anchorOK_run (e : Engine) (ks : List String)
    (h : anchorOK e.vim) : anchorOK ((e.run ks).1).vim := by
  induction ks generalizing e with
  | nil => exact h
  | cons k ks ih =>
    cases ks with
    | nil => exact anchorOK_handle_key e k h
    | cons k2 ks2 => exact ih ((e.handle_key k).1) (anchorOK_handle_key e k h)

-- ─────────────────────────────────────────────────────────────────
-- C10 counterexample: the prefix buffer can survive a mode transition
-- ─────────────────────────────────────────────────────────────────

/-- C10 counterexample: `d`, `i`, `escape` cancels the pending operator and
transitions to Normal via enter_mode, yet the engine-level multi-key prefix
buffer still holds `i` immediately afterwards — the digit buffer is cleared
but the prefix-key part of the claimed invariant fails. -/
theorem c10_prefix_buffer_survives_enter_mode :
    ((initEngine docAbc).run ["d", "i", "escape"]).1.vim.mode = .normal ∧
    ((initEngine docAbc).run ["d", "i", "escape"]).1.vim.input_buffer = [] ∧
    ((initEngine docAbc).run ["d", "i", "escape"]).1.key_buffer = "i" ∧
    "i" ≠ "" := by
  decide

/-- C10 (amended): the anchor half of the claimed invariant holds — in every
state reachable by feeding a key sequence to a fresh engine, the visual
anchor is non-none only while the mode is one of the visual modes — and
enter_mode always clears the digit input buffer (VimState.input_buffer).
The buffer that can survive a transition is the separate engine-level
key_buffer exhibited by the counterexample. -/
theorem c10_anchor_invariant_amended :
    (∀ (d : Doc) (ks : List String),
        anchorOK ((((initEngine d).run ks).1).vim)) ∧
    (∀ (s : VimState) (m : VimMode), (s.enter_mode m).input_buffer = []) := by
  constructor
  · intro d ks
    refine anchorOK_run _ ks ?_
    intro hn
    exact absurd rfl hn
  · intro s m
    rfl

/-- C10 witness: the invariant evaluated after entering visual mode on a
concrete document, and the buffer clearing on a concrete transition. -/
theorem c10_anchor_invariant_witness :
    anchorOK ((((initEngine docAbc).run ["v"]).1).vim) ∧
    (({} : VimState).enter_mode .insert).input_buffer = [] :=
  ⟨c10_anchor_invariant_amended.1 docAbc ["v"],
   c10_anchor_invariant_amended.2 {} .insert⟩

-- ─────────────────────────────────────────────────────────────────
-- C3: motion result bounds
-- ─────────────────────────────────────────────────────────────────

/-- The Normal/Visual-mode in-bounds condition on the starting cursor, as
the claim states it: row within the document, col at most max(0, len-1). -/
def normalStart (d : Doc) : Prop :=
  d.cursor_row < d.line_count ∧
  d.cursor_col ≤ max 0 (d.current_line_length - 1)

/-- The amended destination bound: row within the document and col at most
the destination line's length (one more than the claimed max(0, len-1)). -/
def destBound (d : Doc) (p : Nat × Nat) : Prop :=
  p.1 < d.line_count ∧ p.2 ≤ (d.lines.getD p.1 []).length

instance (d : Doc) : Decidable (normalStart d) := by
  unfold normalStart; infer_instance

instance (d : Doc) (p : Nat × Nat) : Decidable (destBound d p) := by
  unfold destBound; infer_instance

theorem line_count_pos (d : Doc) : 0 < d.line_count := by
  have h := List.splitOnP_ne_nil (fun c => c == '\n') d.text
  unfold Doc.line_count Doc.lines List.splitOn
  exact List.length_pos.mpr h

theorem scanFwd_le (p : Char → Bool) (line : List Char) (col : Nat)
    (h : col ≤ line.length) : scanFwd p line col ≤ line.length := by
  unfold scanFwd
  have h1 : ((line.drop col).takeWhile p).length ≤ (line.drop col).length :=
    (List.takeWhile_sublist p).length_le
  rw [List.length_drop] at h1
  omega

theorem scanFwdNext_le (p : Char → Bool) (line : List Char) (col : Nat)
    (h : col ≤ line.length) : scanFwdNext p line col ≤ line.length := by
  unfold scanFwdNext
  have h1 : ((line.drop (col + 1)).takeWhile p).length ≤
      (line.drop (col + 1)).length :=
    (List.takeWhile_sublist p).length_le
  rw [List.length_drop] at h1
  omega

theorem findIdx?_le (p : Char → Bool) :
    ∀ (l : List Char) (i j : Nat), List.findIdx? p l i = some j →
      i ≤ j ∧ j < i + l.length
  | [], i, j => by intro h; rw [List.findIdx?_nil] at h; cases h
  | c :: rest, i, j => by
    intro h
    rw [List.findIdx?_cons] at h
    split at h
    · cases h
      simp only [List.length_cons]
      omega
    · have := findIdx?_le p rest (i + 1) j h
      simp only [List.length_cons]
      omega

theorem firstNonBlankCol_le (line : List Char) :
    firstNonBlankCol line ≤ line.length := by
  unfold firstNonBlankCol
  split
  · rename_i i hi
    have := findIdx?_le _ line 0 i hi
    omega
  · exact Nat.zero_le _

theorem findNthAux_lt (ch : Char) :
    ∀ (l : List Char) (idx k j : Nat), findNthAux ch l idx k = some j →
      idx ≤ j ∧ j < idx + l.length
  | [], idx, k, j => by intro h; cases h
  | c :: rest, idx, k, j => by
    intro h
    unfold findNthAux at h
    split at h
    · split at h
      · cases h
        simp only [List.length_cons]
        omega
      · have := findNthAux_lt ch rest (idx + 1) (k - 1) j h
        simp only [List.length_cons]
        omega
    · have := findNthAux_lt ch rest (idx + 1) k j h
      simp only [List.length_cons]
      omega

/-- Loop invariant of the forward word scans: while the row is in range the
column is at most the line length, and once the row runs off the document
it is exactly lines.length with column 0. -/
def fwdInv (lines : List (List Char)) (rc : Nat × Nat) : Prop :=
  (rc.1 < lines.length → rc.2 ≤ (lines.getD rc.1 []).length) ∧
  (lines.length ≤ rc.1 → rc.1 = lines.length ∧ rc.2 = 0)

theorem wordFwdStep_out (lines : List (List Char)) (big : Bool)
    (rc : Nat × Nat) (hrc : rc.1 < lines.length)
    (hc : rc.2 ≤ (lines.getD rc.1 []).length) :
    ((wordFwdStep lines big rc).1 < lines.length ∧
      (wordFwdStep lines big rc).2 ≤
        (lines.getD (wordFwdStep lines big rc).1 []).length) ∨
    ((wordFwdStep lines big rc).1 = lines.length ∧
      (wordFwdStep lines big rc).2 = 0) := by
  unfold wordFwdStep
  dsimp only
  have hA : scanFwd isSpaceChar (lines.getD rc.1 [])
      (scanFwd (fun c => ¬ isSpaceChar c) (lines.getD rc.1 []) rc.2) ≤
      (lines.getD rc.1 []).length :=
    scanFwd_le _ _ _ (scanFwd_le _ _ _ hc)
  have hB : scanFwd isSpaceChar (lines.getD rc.1 [])
      (scanFwd (fun c => get_char_class c ==
          get_char_class ((lines.getD rc.1 []).getD rc.2 ' '))
        (lines.getD rc.1 []) rc.2) ≤ (lines.getD rc.1 []).length :=
    scanFwd_le _ _ _ (scanFwd_le _ _ _ hc)
  have hC : scanFwd isSpaceChar (lines.getD rc.1 []) rc.2 ≤
      (lines.getD rc.1 []).length := scanFwd_le _ _ _ hc
  split_ifs with h1 h2 h3 h4 h5 h6 h7 h8
  all_goals dsimp only
  all_goals first
    | (right; exact ⟨by omega, rfl⟩)
    | (left; refine ⟨by omega, ?_⟩; first
        | exact scanFwd_le _ _ _ (Nat.zero_le _)
        | omega)

theorem wordFwdStep_inv (lines : List (List Char)) (big : Bool)
    (rc : Nat × Nat) (hrc : rc.1 < lines.length)
    (h : fwdInv lines rc) : fwdInv lines (wordFwdStep lines big rc) := by
  rcases wordFwdStep_out lines big rc hrc (h.1 hrc) with ⟨a, b⟩ | ⟨a, b⟩
  · exact ⟨fun _ => b, fun hge => absurd a (by omega)⟩
  · exact ⟨fun hlt => absurd hlt (by omega), fun _ => ⟨a, b⟩⟩

theorem wordFwdIter_inv (lines : List (List Char)) (big : Bool) :
    ∀ (n : Nat) (rc : Nat × Nat), fwdInv lines rc →
      fwdInv lines (wordFwdIter lines big n rc)
  | 0, rc, h => h
  | n + 1, rc, h => by
    unfold wordFwdIter
    split
    · exact h
    · rename_i hge
      exact wordFwdIter_inv lines big n _
        (wordFwdStep_inv lines big rc (by omega) h)

theorem get_word_start_forward_bound (d : Doc) (count : Nat) (big : Bool)
    (h : normalStart d) : destBound d (d.get_word_start_forward count big) := by
  obtain ⟨h1, h2⟩ := h
  have hL : 0 < d.lines.length := line_count_pos d
  have h1' : d.cursor_row < d.lines.length := h1
  have hinv : fwdInv d.lines (d.cursor_row, d.cursor_col) := by
    refine ⟨fun _ => ?_, fun hge => absurd h1' (by exact Nat.not_lt.mpr hge)⟩
    dsimp only
    unfold Doc.current_line_length Doc.current_line at h2
    simp only [Nat.zero_max] at h2
    omega
  have hiter := wordFwdIter_inv d.lines big count _ hinv
  obtain ⟨i1, i2⟩ := hiter
  unfold Doc.get_word_start_forward destBound Doc.line_count
  dsimp only
  constructor
  · exact lt_of_le_of_lt (min_le_right _ _) (by omega)
  · by_cases hr : (wordFwdIter d.lines big count (d.cursor_row, d.cursor_col)).1
        < d.lines.length
    · rw [min_eq_left (by omega)]
      exact i1 hr
    · obtain ⟨e1, e2⟩ := i2 (Nat.not_lt.mp hr)
      rw [e2]
      exact Nat.zero_le _

set_option maxHeartbeats 2000000 in
theorem wordEndStep_out (lines : List (List Char)) (big : Bool)
    (rc : Nat × Nat) (hrc : rc.1 < lines.length)
    ( _hc : rc.2 ≤ (lines.getD rc.1 []).length) :
    (((wordEndStep lines big rc).1).1 < lines.length ∧
      ((wordEndStep lines big rc).1).2 ≤
        (lines.getD ((wordEndStep lines big rc).1).1 []).length) ∨
    (((wordEndStep lines big rc).1).1 = lines.length ∧
      ((wordEndStep lines big rc).1).2 = 0) := by
  unfold wordEndStep
  dsimp only
  split_ifs
  all_goals dsimp only
  all_goals first
    | (exact Bool.noConfusion (by assumption : false = true))
    | (right; exact ⟨by omega, rfl⟩)
    | (left; refine ⟨by omega, ?_⟩; first
        | omega
        | exact scanFwd_le _ _ _ (Nat.zero_le _)
        | exact scanFwd_le _ _ _ (by omega)
        | exact scanFwd_le _ _ _ (scanFwd_le _ _ _ (Nat.zero_le _))
        | exact scanFwdNext_le _ _ _ (scanFwd_le _ _ _ (Nat.zero_le _))
        | exact scanFwdNext_le _ _ _ (scanFwd_le _ _ _ (by omega))
        | exact scanFwdNext_le _ _ _
            (scanFwd_le _ _ _ (scanFwd_le _ _ _ (Nat.zero_le _))))

theorem wordEndStep_inv (lines : List (List Char)) (big : Bool)
    (rc : Nat × Nat) (hrc : rc.1 < lines.length)
    (h : fwdInv lines rc) : fwdInv lines ((wordEndStep lines big rc).1) := by
  rcases wordEndStep_out lines big rc hrc (h.1 hrc) with ⟨a, b⟩ | ⟨a, b⟩
  · exact ⟨fun _ => b, fun hge => absurd a (by omega)⟩
  · exact ⟨fun hlt => absurd hlt (by omega), fun _ => ⟨a, b⟩⟩

theorem wordEndIter_inv (lines : List (List Char)) (big : Bool) :
    ∀ (n : Nat) (rc : Nat × Nat), fwdInv lines rc →
      fwdInv lines (wordEndIter lines big n rc)
  | 0, rc, h => h
  | n + 1, rc, h => by
    unfold wordEndIter
    split
    · exact h
    · rename_i hge
      dsimp only
      split
      · exact wordEndStep_inv lines big rc (by omega) h
      · exact wordEndIter_inv lines big n _
          (wordEndStep_inv lines big rc (by omega) h)

theorem get_word_end_forward_bound (d : Doc) (count : Nat) (big : Bool)
    (h : normalStart d) : destBound d (d.get_word_end_forward count big) := by
  obtain ⟨h1, h2⟩ := h
  have hL : 0 < d.lines.length := line_count_pos d
  have h1' : d.cursor_row < d.lines.length := h1
  have hinv : fwdInv d.lines (d.cursor_row, d.cursor_col) := by
    refine ⟨fun _ => ?_, fun hge => absurd h1' (by exact Nat.not_lt.mpr hge)⟩
    dsimp only
    unfold Doc.current_line_length Doc.current_line at h2
    simp only [Nat.zero_max] at h2
    omega
  have hiter := wordEndIter_inv d.lines big count _ hinv
  obtain ⟨i1, i2⟩ := hiter
  unfold Doc.get_word_end_forward destBound Doc.line_count
  dsimp only
  constructor
  · exact lt_of_le_of_lt (min_le_right _ _) (by omega)
  · by_cases hr : (wordEndIter d.lines big count (d.cursor_row, d.cursor_col)).1
        < d.lines.length
    · rw [min_eq_left (by omega)]
      exact i1 hr
    · obtain ⟨e1, e2⟩ := i2 (Nat.not_lt.mp hr)
      rw [e2]
      exact Nat.zero_le _

theorem scanBwdWs_le (line : List Char) (col : Int) :
    scanBwdWs line col ≤ col := by
  unfold scanBwdWs
  split
  · omega
  · omega

theorem scanBwdWs_ge (line : List Char) (col : Int) (h : -1 ≤ col) :
    -1 ≤ scanBwdWs line col := by
  unfold scanBwdWs
  split
  · rename_i hb
    have hl : ((line.take (col.toNat + 1)).reverse.takeWhile isSpaceChar).length
        ≤ (line.take (col.toNat + 1)).reverse.length :=
      (List.takeWhile_sublist _).length_le
    rw [List.length_reverse, List.length_take] at hl
    omega
  · exact h

theorem scanRunStartI_le (p : Char → Bool) (line : List Char) (col : Int) :
    scanRunStartI p line col ≤ max col 0 := by
  unfold scanRunStartI
  split
  · omega
  · omega

theorem scanRunStartI_ge (p : Char → Bool) (line : List Char) (col : Int) :
    min col 0 ≤ scanRunStartI p line col := by
  unfold scanRunStartI
  split
  · omega
  · omega

/-- Loop invariant of the backward word scan: the (Int) row stays inside the
document and the (Int) column within [-1, max(len-1, 0)] of its row. -/
def bwdInv (lines : List (List Char)) (rc : Int × Int) : Prop :=
  0 ≤ rc.1 ∧ rc.1 < (lines.length : Int) ∧ -1 ≤ rc.2 ∧
  rc.2 ≤ max (((lines.getD rc.1.toNat []).length : Int) - 1) 0

theorem wordBwdStep_out (lines : List (List Char)) (big : Bool)
    (rc : Int × Int) (h : bwdInv lines rc) :
    wordBwdStep lines big rc = Sum.inr (0, 0) ∨
    ∃ rc', wordBwdStep lines big rc = Sum.inl rc' ∧ bwdInv lines rc' := by
  obtain ⟨h1, h2, h3, h4⟩ := h
  unfold wordBwdStep
  dsimp only
  split
  · rename_i v hv
    left
    split at hv
    · split at hv
      · cases hv; rfl
      · cases hv
    · cases hv
  · rename_i row col heq
    have hb : 0 ≤ row ∧ row < (lines.length : Int) ∧ -1 ≤ col ∧
        col ≤ max (((lines.getD row.toNat []).length : Int) - 1) 0 := by
      split at heq
      · split at heq
        · cases heq
        · cases heq
          refine ⟨by omega, by omega, ?_, ?_⟩ <;> (split <;> omega)
      · cases heq
        exact ⟨by omega, by omega, by omega, by omega⟩
    obtain ⟨b1, b2, b3, b4⟩ := hb
    clear heq
    rw [if_neg (show ¬ row < 0 by omega),
        if_pos (show row < (lines.length : Int) by omega)]
    have hws_le := scanBwdWs_le (lines.getD row.toNat []) col
    have hws_ge := scanBwdWs_ge (lines.getD row.toNat []) col b3
    split
    · rename_i hneg
      split
      · left; rfl
      · rename_i hr2
        split
        · right
          refine ⟨_, rfl, ?_⟩
          simp only [bwdInv]
          refine ⟨by omega, by omega, ?_, ?_⟩
          · exact le_trans (by omega) (scanRunStartI_ge _ _ _)
          · exact le_trans (scanRunStartI_le _ _ _) (by omega)
        · split
          · right
            refine ⟨_, rfl, ?_⟩
            simp only [bwdInv]
            refine ⟨by omega, by omega, ?_, ?_⟩
            · exact le_trans (by omega) (scanRunStartI_ge _ _ _)
            · exact le_trans (scanRunStartI_le _ _ _) (by omega)
          · right
            refine ⟨_, rfl, ?_⟩
            simp only [bwdInv]
            exact ⟨by omega, by omega, by omega, by omega⟩
    · rename_i hpos
      split
      · right
        refine ⟨_, rfl, ?_⟩
        simp only [bwdInv]
        refine ⟨by omega, by omega, ?_, ?_⟩
        · exact le_trans (by omega) (scanRunStartI_ge _ _ _)
        · exact le_trans (scanRunStartI_le _ _ _) (by omega)
      · split
        · right
          refine ⟨_, rfl, ?_⟩
          simp only [bwdInv]
          refine ⟨by omega, by omega, ?_, ?_⟩
          · exact le_trans (by omega) (scanRunStartI_ge _ _ _)
          · exact le_trans (scanRunStartI_le _ _ _) (by omega)
        · right
          refine ⟨_, rfl, ?_⟩
          simp only [bwdInv]
          exact ⟨by omega, by omega, by omega, by omega⟩

theorem wordBwdIter_out (lines : List (List Char)) (big : Bool) :
    ∀ (n : Nat) (rc : Int × Int), bwdInv lines rc →
      wordBwdIter lines big n rc = Sum.inr (0, 0) ∨
      ∃ rc', wordBwdIter lines big n rc = Sum.inl rc' ∧ bwdInv lines rc'
  | 0, rc, h => Or.inr ⟨rc, rfl, h⟩
  | n + 1, rc, h => by
    unfold wordBwdIter
    rcases wordBwdStep_out lines big rc h with hs | ⟨rc', hs, hinv⟩
    · rw [hs]
      left
      rfl
    · rw [hs]
      exact wordBwdIter_out lines big n rc' hinv

theorem get_word_start_backward_bound (d : Doc) (count : Nat) (big : Bool)
    (h : normalStart d) : destBound d (d.get_word_start_backward count big) := by
  obtain ⟨hr, hcLe⟩ := h
  have hL : 0 < d.lines.length := line_count_pos d
  have hr' : d.cursor_row < d.lines.length := hr
  have hinv : bwdInv d.lines ((d.cursor_row : Int), (d.cursor_col : Int)) := by
    simp only [bwdInv, Int.toNat_natCast]
    unfold Doc.current_line_length Doc.current_line at hcLe
    simp only [Nat.zero_max] at hcLe
    refine ⟨by omega, by omega, by omega, by omega⟩
  rcases wordBwdIter_out d.lines big count _ hinv with hit | ⟨rc', hit, hinv'⟩
  · unfold Doc.get_word_start_backward destBound
    rw [hit]
    exact ⟨hL, Nat.zero_le _⟩
  · obtain ⟨b1, b2, b3, b4⟩ := hinv'
    unfold Doc.get_word_start_backward destBound
    rw [hit]
    dsimp only
    constructor
    · show (max 0 rc'.1).toNat < d.line_count
      unfold Doc.line_count
      omega
    · rw [max_eq_right b1]
      omega

theorem destBound_cursor (d : Doc) (h : normalStart d) : destBound d d.cursor := by
  obtain ⟨h1, h2⟩ := h
  unfold Doc.current_line_length Doc.current_line Doc.cursor_col at h2
  simp only [Nat.zero_max] at h2
  unfold Doc.cursor_row at h1 h2
  unfold destBound
  exact ⟨h1, by omega⟩

theorem get_cursor_left_bound (d : Doc) (count : Nat) (h : normalStart d) :
    destBound d (d.get_cursor_left count) := by
  obtain ⟨h1, h2⟩ := h
  unfold Doc.current_line_length Doc.current_line at h2
  simp only [Nat.zero_max] at h2
  unfold Doc.get_cursor_left destBound
  dsimp only
  exact ⟨h1, by omega⟩

theorem get_cursor_right_bound (d : Doc) (count : Nat) (h : normalStart d) :
    destBound d (d.get_cursor_right count) := by
  obtain ⟨h1, _⟩ := h
  unfold Doc.get_cursor_right Doc.current_line_length Doc.current_line destBound
  dsimp only
  exact ⟨h1, by omega⟩

theorem get_cursor_up_bound (d : Doc) (count : Nat) (h : normalStart d) :
    destBound d (d.get_cursor_up count) := by
  obtain ⟨h1, _⟩ := h
  unfold Doc.get_cursor_up destBound
  dsimp only
  exact ⟨by omega, by omega⟩

theorem get_cursor_down_bound (d : Doc) (count : Nat) (_h : normalStart d) :
    destBound d (d.get_cursor_down count) := by
  have hL : 0 < d.line_count := line_count_pos d
  unfold Doc.line_count at hL
  unfold Doc.get_cursor_down destBound Doc.line_count
  dsimp only
  exact ⟨by omega, by omega⟩

theorem get_line_start_bound (d : Doc) (h : normalStart d) :
    destBound d d.get_line_start := by
  unfold Doc.get_line_start destBound
  exact ⟨h.1, Nat.zero_le _⟩

theorem get_line_end_bound (d : Doc) (h : normalStart d) :
    destBound d d.get_line_end := by
  unfold Doc.get_line_end Doc.current_line_length Doc.current_line destBound
  dsimp only
  exact ⟨h.1, by omega⟩

theorem get_first_non_blank_bound (d : Doc) (h : normalStart d) :
    destBound d d.get_first_non_blank := by
  unfold Doc.get_first_non_blank Doc.current_line destBound
  dsimp only
  exact ⟨h.1, firstNonBlankCol_le _⟩

theorem get_last_non_blank_bound (d : Doc) (h : normalStart d) :
    destBound d d.get_last_non_blank := by
  unfold Doc.get_last_non_blank Doc.current_line destBound
  dsimp only
  refine ⟨h.1, ?_⟩
  have hd : ((d.lines.getD d.cursor_row []).reverse.dropWhile
      isSpaceChar).length ≤ (d.lines.getD d.cursor_row []).reverse.length :=
    (List.dropWhile_sublist _).length_le
  rw [List.length_reverse] at hd
  rw [List.length_reverse]
  split <;> omega

theorem get_document_start_bound (d : Doc) :
    destBound d (d.get_document_start) := by
  unfold Doc.get_document_start destBound
  exact ⟨line_count_pos d, Nat.zero_le _⟩

theorem get_document_end_bound (d : Doc) :
    destBound d (d.get_document_end) := by
  have hL : 0 < d.line_count := line_count_pos d
  unfold Doc.line_count at hL
  unfold Doc.get_document_end destBound Doc.line_count
  dsimp only
  exact ⟨by omega, firstNonBlankCol_le _⟩

theorem get_line_n_bound (d : Doc) (n : Nat) :
    destBound d (d.get_line_n n) := by
  have hL : 0 < d.line_count := line_count_pos d
  unfold Doc.line_count at hL
  unfold Doc.get_line_n destBound Doc.line_count
  dsimp only
  exact ⟨by omega, firstNonBlankCol_le _⟩

theorem find_char_forward_bound (d : Doc) (ch : Char) (count : Nat)
    (before : Bool) (p : Nat × Nat)
    (hp : d.find_char_forward ch count before = some p)
    (h1 : d.cursor_row < d.line_count) : destBound d p := by
  unfold Doc.find_char_forward at hp
  dsimp only at hp
  rcases hfa : findNthAux ch (d.current_line.drop (d.cursor_col + 1))
      (d.cursor_col + 1) count with _ | c
  · rw [hfa] at hp
    cases hp
  · rw [hfa] at hp
    injection hp with hp
    subst hp
    have hlt := findNthAux_lt ch _ _ _ _ hfa
    rw [List.length_drop] at hlt
    unfold Doc.current_line at hlt
    unfold destBound
    dsimp only
    refine ⟨h1, ?_⟩
    split <;> omega

theorem find_char_backward_bound (d : Doc) (ch : Char) (count : Nat)
    (before : Bool) (p : Nat × Nat)
    (hp : d.find_char_backward ch count before = some p)
    (h : normalStart d) : destBound d p := by
  obtain ⟨h1, h2⟩ := h
  unfold Doc.current_line_length Doc.current_line at h2
  simp only [Nat.zero_max] at h2
  unfold Doc.find_char_backward at hp
  dsimp only at hp
  rcases hfa : findNthAux ch ((d.current_line.take d.cursor_col).reverse)
      0 count with _ | j
  · rw [hfa] at hp
    cases hp
  · rw [hfa] at hp
    injection hp with hp
    subst hp
    have hlt := findNthAux_lt ch _ _ _ _ hfa
    rw [List.length_reverse, List.length_take] at hlt
    unfold Doc.current_line at hlt
    unfold destBound
    dsimp only
    refine ⟨h1, ?_⟩
    split <;> omega

theorem motion_find_char_bound (d : Doc) (s : VimState) (count : Nat)
    (ch : Char) (fwd bef : Bool) (h : normalStart d) :
    destBound d ((motion_find_char d s count ch fwd bef).1.position) := by
  unfold motion_find_char
  dsimp only
  rcases hp : (if fwd then d.find_char_forward ch count bef
      else d.find_char_backward ch count bef) with _ | p
  · exact destBound_cursor d h
  · dsimp only
    cases fwd
    · simp only [Bool.false_eq_true, if_false] at hp
      exact find_char_backward_bound d ch count bef p hp h
    · simp only [if_true] at hp
      exact find_char_forward_bound d ch count bef p hp h.1

/-- C3 counterexample: on the one-line document `a ` (length 2) with the
in-bounds cursor (0,0), the word-end motion (e) returns column 2 — the full
line length — exceeding the claimed Normal/Visual column bound
max(0, len-1) = 1 (get_word_end_forward can land one past the last
character on trailing whitespace). -/
theorem c3_word_end_exceeds_claimed_bound :
    normalStart { text := "a ".data, cursor := (0, 0) } ∧
    (motion_word_end { text := "a ".data, cursor := (0, 0) } {} 1).1.position
      = (0, 2) ∧
    ¬ ((motion_word_end { text := "a ".data, cursor := (0, 0) } {} 1).1.position.2
        ≤ max 0 ((({ text := "a ".data, cursor := (0, 0) } : Doc).lines.getD
            (motion_word_end { text := "a ".data, cursor := (0, 0) } {} 1).1.position.1
            []).length - 1)) := by
  decide

/-- C3 (amended): every motion handler registered in MOTION_HANDLERS,
started from an in-bounds Normal/Visual-mode cursor (row < line_count,
col ≤ max(0, len-1)), returns a position whose row is inside the document
and whose column is at most the destination line's length.  The claimed
tighter column bound max(0, len-1) does not hold (see the counterexample);
len is the correct uniform upper bound. -/
theorem c3_motion_bounds_amended (name : String) (f : MotionFunc)
    (hf : get_motion_handler name = some f) (d : Doc) (s : VimState)
    (count : Nat) (h : normalStart d) :
    destBound d ((f d s count).1.position) := by
  unfold get_motion_handler tableGet at hf
  rcases hfind : MOTION_HANDLERS.find? (fun p => p.1 = name) with _ | p
  · rw [hfind] at hf
    cases hf
  · rw [hfind] at hf
    injection hf with hf
    subst hf
    have hp := List.mem_of_find?_eq_some hfind
    fin_cases hp <;>
      first
        | exact get_cursor_left_bound d count h
        | exact get_cursor_right_bound d count h
        | exact get_cursor_up_bound d count h
        | exact get_cursor_down_bound d count h
        | exact get_line_start_bound d h
        | exact get_first_non_blank_bound d h
        | exact get_line_end_bound d h
        | exact get_last_non_blank_bound d h
        | exact get_word_start_forward_bound d count false h
        | exact get_word_start_forward_bound d count true h
        | exact get_word_end_forward_bound d count false h
        | exact get_word_end_forward_bound d count true h
        | exact get_word_start_backward_bound d count false h
        | exact get_word_start_backward_bound d count true h
        | (unfold motion_document_start
           dsimp only
           split
           · exact get_line_n_bound d count
           · exact get_document_start_bound d)
        | (unfold motion_document_end
           dsimp only
           split
           · exact get_line_n_bound d count
           · exact get_document_end_bound d)
        | (unfold motion_repeat_find
           dsimp only
           split
           · exact destBound_cursor d h
           · exact motion_find_char_bound d s count _ _ _ h)
        | (unfold motion_repeat_find_reverse
           dsimp only
           split
           · exact destBound_cursor d h
           · exact motion_find_char_bound d s count _ _ _ h)

/-- C3 witness: the amended bound evaluated for the left motion on the
`hello world` document. -/
theorem c3_motion_bounds_witness :
    normalStart docHello ∧
    destBound docHello ((motion_left docHello {} 1).1.position) :=
  ⟨by decide, c3_motion_bounds_amended "motion_left" motion_left rfl
      docHello {} 1 (by decide)⟩

end VimSpec
